import Mathlib

/-!
Verification of the MCP context/conversation broker
(`src/mcp/protocol.py`, `memory_store.py`, `context_manager.py`,
`conversation.py`, `mcp_server.py`).

Shallow embedding conventions:
* JSON-compatible Python values are modelled by `JVal`.  A JSON string that
  is a well-formed ISO timestamp is represented by the distinguished
  constructor `JVal.time t` (its rendered text is `timeStr t`); all other
  strings use `JVal.str`.
* `datetime` instants are integers measured in minutes (the only duration
  the source constructs is `timedelta(minutes=n)`), threaded through every
  operation as an explicit `now` parameter.
* `uuid.uuid4()` results are threaded as explicit fresh-name parameters.
* Python `dict`s are association lists with first-match lookup.
* The SQLite store is modelled as in-memory lists of rows; storage-layer
  I/O exceptions (disk errors) are not modelled, so store writes succeed.
* Python exceptions raised inside manager code are modelled with
  `Except String`; handler-level `try/except` blocks convert them into
  failure responses exactly as the source does.
-/

/-- JSON-like values appearing in payloads, data and metadata mappings. -/
inductive JVal where
  | null : JVal
  | bool (b : Bool) : JVal
  | int (n : Int) : JVal
  | str (s : String) : JVal
  | time (t : Int) : JVal
  | arr (xs : List JVal) : JVal
  | obj (kvs : List (String × JVal)) : JVal
  deriving Repr

mutual

/-- Decidable equality for `JVal` (the automatic derivation does not
handle the nested lists). -/
def JVal.decEq : (a b : JVal) → Decidable (a = b)
  | .null, .null => isTrue rfl
  | .bool a, .bool b =>
      if h : a = b then isTrue (by rw [h])
      else isFalse (by intro he; injection he; contradiction)
  | .int a, .int b =>
      if h : a = b then isTrue (by rw [h])
      else isFalse (by intro he; injection he; contradiction)
  | .str a, .str b =>
      if h : a = b then isTrue (by rw [h])
      else isFalse (by intro he; injection he; contradiction)
  | .time a, .time b =>
      if h : a = b then isTrue (by rw [h])
      else isFalse (by intro he; injection he; contradiction)
  | .arr xs, .arr ys =>
      match JVal.decEqList xs ys with
      | isTrue h => isTrue (by rw [h])
      | isFalse h => isFalse (by intro he; injection he; contradiction)
  | .obj xs, .obj ys =>
      match JVal.decEqObj xs ys with
      | isTrue h => isTrue (by rw [h])
      | isFalse h => isFalse (by intro he; injection he; contradiction)
  | .null, .bool _ => isFalse (by intro h; cases h)
  | .null, .int _ => isFalse (by intro h; cases h)
  | .null, .str _ => isFalse (by intro h; cases h)
  | .null, .time _ => isFalse (by intro h; cases h)
  | .null, .arr _ => isFalse (by intro h; cases h)
  | .null, .obj _ => isFalse (by intro h; cases h)
  | .bool _, .null => isFalse (by intro h; cases h)
  | .bool _, .int _ => isFalse (by intro h; cases h)
  | .bool _, .str _ => isFalse (by intro h; cases h)
  | .bool _, .time _ => isFalse (by intro h; cases h)
  | .bool _, .arr _ => isFalse (by intro h; cases h)
  | .bool _, .obj _ => isFalse (by intro h; cases h)
  | .int _, .null => isFalse (by intro h; cases h)
  | .int _, .bool _ => isFalse (by intro h; cases h)
  | .int _, .str _ => isFalse (by intro h; cases h)
  | .int _, .time _ => isFalse (by intro h; cases h)
  | .int _, .arr _ => isFalse (by intro h; cases h)
  | .int _, .obj _ => isFalse (by intro h; cases h)
  | .str _, .null => isFalse (by intro h; cases h)
  | .str _, .bool _ => isFalse (by intro h; cases h)
  | .str _, .int _ => isFalse (by intro h; cases h)
  | .str _, .time _ => isFalse (by intro h; cases h)
  | .str _, .arr _ => isFalse (by intro h; cases h)
  | .str _, .obj _ => isFalse (by intro h; cases h)
  | .time _, .null => isFalse (by intro h; cases h)
  | .time _, .bool _ => isFalse (by intro h; cases h)
  | .time _, .int _ => isFalse (by intro h; cases h)
  | .time _, .str _ => isFalse (by intro h; cases h)
  | .time _, .arr _ => isFalse (by intro h; cases h)
  | .time _, .obj _ => isFalse (by intro h; cases h)
  | .arr _, .null => isFalse (by intro h; cases h)
  | .arr _, .bool _ => isFalse (by intro h; cases h)
  | .arr _, .int _ => isFalse (by intro h; cases h)
  | .arr _, .str _ => isFalse (by intro h; cases h)
  | .arr _, .time _ => isFalse (by intro h; cases h)
  | .arr _, .obj _ => isFalse (by intro h; cases h)
  | .obj _, .null => isFalse (by intro h; cases h)
  | .obj _, .bool _ => isFalse (by intro h; cases h)
  | .obj _, .int _ => isFalse (by intro h; cases h)
  | .obj _, .str _ => isFalse (by intro h; cases h)
  | .obj _, .time _ => isFalse (by intro h; cases h)
  | .obj _, .arr _ => isFalse (by intro h; cases h)

/-- Decidable equality for lists of `JVal`. -/
def JVal.decEqList : (a b : List JVal) → Decidable (a = b)
  | [], [] => isTrue rfl
  | [], _ :: _ => isFalse (by intro h; cases h)
  | _ :: _, [] => isFalse (by intro h; cases h)
  | x :: xs, y :: ys =>
      match JVal.decEq x y, JVal.decEqList xs ys with
      | isTrue h1, isTrue h2 => isTrue (by rw [h1, h2])
      | isFalse h1, _ => isFalse (by intro he; injection he; contradiction)
      | isTrue _, isFalse h2 => isFalse (by intro he; injection he; contradiction)

/-- Decidable equality for key-value lists of `JVal`. -/
def JVal.decEqObj : (a b : List (String × JVal)) → Decidable (a = b)
  | [], [] => isTrue rfl
  | [], _ :: _ => isFalse (by intro h; cases h)
  | _ :: _, [] => isFalse (by intro h; cases h)
  | (k, v) :: xs, (k', v') :: ys =>
      if hk : k = k' then
        match JVal.decEq v v', JVal.decEqObj xs ys with
        | isTrue h1, isTrue h2 => isTrue (by rw [hk, h1, h2])
        | isFalse h1, _ => isFalse (by
            intro he; injection he with he1 he2
            injection he1; contradiction)
        | isTrue _, isFalse h2 => isFalse (by
            intro he; injection he with he1 he2; exact h2 he2)
      else isFalse (by
        intro he; injection he with he1 he2
        injection he1; contradiction)

end

instance : DecidableEq JVal := JVal.decEq

/-- The rendered ISO text of a modelled timestamp (`datetime.isoformat()`).
Any injective rendering that is never an enum value works for the model. -/
def timeStr (t : Int) : String := "1970-01-01T" ++ toString t

/-- A Python dict with string keys. -/
abbrev Dict := List (String × JVal)

/-- Models `d.get(k)` — first-match lookup. -/
def dget (d : Dict) (k : String) : Option JVal :=
  match d with
  | [] => none
  | (k', v) :: rest => if k' = k then some v else dget rest k

/-- Models `d[k] = v` — replace the binding if present, else append. -/
def dset (d : Dict) (k : String) (v : JVal) : Dict :=
  match d with
  | [] => [(k, v)]
  | (k', v') :: rest => if k' = k then (k, v) :: rest else (k', v') :: dset rest k v

/-- Python truthiness of a JSON value. -/
def jTruthy : JVal → Bool
  | .null => false
  | .bool b => b
  | .int n => n != 0
  | .str s => s != ""
  | .time _ => true
  | .arr xs => !xs.isEmpty
  | .obj kvs => !kvs.isEmpty

/-- Truthiness of an optional value (`payload.get(k)` can be `None`). -/
def jTruthyO : Option JVal → Bool
  | none => false
  | some v => jTruthy v

/-- Truthiness of an optional string field. -/
def strTruthyO : Option String → Bool
  | none => false
  | some s => s != ""

/-- Python substring test `needle in haystack` on strings. -/
def strContains (haystack needle : String) : Bool :=
  if needle = "" then true else (haystack.splitOn needle).length ≠ 1

/-- Python `x in v` membership; raises `TypeError` on non-containers. -/
def jContainsE (v : JVal) (x : String) : Except String Bool :=
  match v with
  | .arr xs => .ok (xs.contains (JVal.str x))
  | .str s => .ok (strContains s x)
  | .time t => .ok (strContains (timeStr t) x)
  | .obj kvs => .ok (kvs.any (fun kv => kv.1 == x))
  | _ => .error "TypeError: argument is not iterable"

/-- Python `.copy()`; lists and dicts have it, other values raise. -/
def jCopyE (v : JVal) : Except String JVal :=
  match v with
  | .arr xs => .ok (.arr xs)
  | .obj kvs => .ok (.obj kvs)
  | _ => .error "AttributeError: no copy method"

/-- Models `MessageType` enum (`protocol.py`). -/
inductive MessageType where
  | context_share | conversation_start | conversation_message | conversation_end
  | memory_store | memory_retrieve | agent_register | agent_status
  | system_broadcast
  deriving Repr, DecidableEq

/-- Models `MessageType.value`. -/
def MessageType.value : MessageType → String
  | .context_share => "context_share"
  | .conversation_start => "conversation_start"
  | .conversation_message => "conversation_message"
  | .conversation_end => "conversation_end"
  | .memory_store => "memory_store"
  | .memory_retrieve => "memory_retrieve"
  | .agent_register => "agent_register"
  | .agent_status => "agent_status"
  | .system_broadcast => "system_broadcast"

/-- Models `MessageType(s)` value lookup; `none` models the `ValueError`. -/
def MessageType.ofValue (s : String) : Option MessageType :=
  if s = "context_share" then some .context_share
  else if s = "conversation_start" then some .conversation_start
  else if s = "conversation_message" then some .conversation_message
  else if s = "conversation_end" then some .conversation_end
  else if s = "memory_store" then some .memory_store
  else if s = "memory_retrieve" then some .memory_retrieve
  else if s = "agent_register" then some .agent_register
  else if s = "agent_status" then some .agent_status
  else if s = "system_broadcast" then some .system_broadcast
  else none

/-- Models `AgentType` enum (`protocol.py`). -/
inductive AgentType where
  | ai_provider | chatbot | monitor_agent | dashboard | external_client
  deriving Repr, DecidableEq

/-- Models `AgentType.value`. -/
def AgentType.value : AgentType → String
  | .ai_provider => "ai_provider"
  | .chatbot => "chatbot"
  | .monitor_agent => "monitor_agent"
  | .dashboard => "dashboard"
  | .external_client => "external_client"

/-- Models `AgentType(s)` value lookup; `none` models the `ValueError`. -/
def AgentType.ofValue (s : String) : Option AgentType :=
  if s = "ai_provider" then some .ai_provider
  else if s = "chatbot" then some .chatbot
  else if s = "monitor_agent" then some .monitor_agent
  else if s = "dashboard" then some .dashboard
  else if s = "external_client" then some .external_client
  else none

/-- Models `AgentType(payload.get('agent_type', ...))` applied to a JSON value:
only a string that is a known enum value succeeds. -/
def AgentType.ofJVal (v : JVal) : Option AgentType :=
  match v with
  | .str s => AgentType.ofValue s
  | _ => none

/-- Models `MCPMessage` dataclass (`protocol.py`). -/
structure MCPMessage where
  id : String
  type : MessageType
  sender_id : String
  sender_type : AgentType
  recipient_id : Option String
  timestamp : Int
  payload : Dict
  conversation_id : Option String
  thread_id : Option String
  deriving Repr, DecidableEq

/-- Models `MCPRequest` dataclass. -/
structure MCPRequest extends MCPMessage where
  request_id : String
  expects_response : Bool
  timeout_seconds : Int
  deriving Repr, DecidableEq

/-- Models `MCPResponse` dataclass. -/
structure MCPResponse extends MCPMessage where
  request_id : String
  success : Bool
  error_message : Option String
  response_data : Dict
  deriving Repr, DecidableEq

/-- A timestamp wire field: either a well-formed ISO string (`iso t`)
or text that `datetime.fromisoformat` rejects (`bad`). -/
inductive TimeStr where
  | iso (t : Int) : TimeStr
  | bad (s : String) : TimeStr
  deriving Repr, DecidableEq

/-- The wire mapping consumed by `MCPMessage.from_dict`: each key either
absent (`none`) or holding a value of the shape the source reads from it. -/
structure WireDict where
  id : Option String
  type : Option String
  sender_id : Option String
  sender_type : Option String
  recipient_id : Option String
  timestamp : Option TimeStr
  payload : Option Dict
  conversation_id : Option String
  thread_id : Option String
  deriving Repr, DecidableEq

/-- A wire mapping with no keys. -/
def WireDict.empty : WireDict :=
  ⟨none, none, none, none, none, none, none, none, none⟩

/-- Models `MCPMessage.to_dict` (`protocol.py` lines 45-57). -/
def MCPMessage.to_dict (m : MCPMessage) : WireDict where
  id := some m.id
  type := some m.type.value
  sender_id := some m.sender_id
  sender_type := some m.sender_type.value
  recipient_id := m.recipient_id
  timestamp := some (.iso m.timestamp)
  payload := some m.payload
  conversation_id := m.conversation_id
  thread_id := m.thread_id

/-- The extra keys `MCPRequest.to_dict` adds on top of the base mapping. -/
structure ReqWire where
  base : WireDict
  request_id : String
  expects_response : Bool
  timeout_seconds : Int
  deriving Repr, DecidableEq

/-- Models `MCPRequest.to_dict` (`protocol.py` lines 81-88). -/
def MCPRequest.to_dict (r : MCPRequest) : ReqWire where
  base := r.toMCPMessage.to_dict
  request_id := r.request_id
  expects_response := r.expects_response
  timeout_seconds := r.timeout_seconds

/-- The extra keys `MCPResponse.to_dict` adds on top of the base mapping. -/
structure RespWire where
  base : WireDict
  request_id : String
  success : Bool
  error_message : Option String
  response_data : Dict
  deriving Repr, DecidableEq

/-- Models `MCPResponse.to_dict` (`protocol.py` lines 98-106). -/
def MCPResponse.to_dict (r : MCPResponse) : RespWire where
  base := r.toMCPMessage.to_dict
  request_id := r.request_id
  success := r.success
  error_message := r.error_message
  response_data := r.response_data

/-- Models `MCPMessage.from_dict` (`protocol.py` lines 59-72).  `freshId` models
the `uuid.uuid4()` default and `now` the `datetime.now()` default; an
`error` result models the `ValueError` raised by an unknown enum value or
a malformed timestamp string. -/
def MCPMessage.from_dict (d : WireDict) (freshId : String) (now : Int) :
    Except String MCPMessage :=
  match MessageType.ofValue (d.type.getD "context_share") with
  | none => .error ("ValueError: '" ++ d.type.getD "context_share" ++
      "' is not a valid MessageType")
  | some ty =>
      match AgentType.ofValue (d.sender_type.getD "external_client") with
      | none => .error ("ValueError: '" ++ d.sender_type.getD "external_client" ++
          "' is not a valid AgentType")
      | some sty =>
          match d.timestamp with
          | some (.bad s) =>
              .error ("ValueError: Invalid isoformat string: " ++ s)
          | ts =>
              .ok ⟨d.id.getD freshId, ty, d.sender_id.getD "", sty,
                d.recipient_id,
                (match ts with | some (.iso t) => t | _ => now),
                d.payload.getD [], d.conversation_id, d.thread_id⟩

/-- Models `ContextData` dataclass (`protocol.py` lines 108-122).  The fields the
source types as `str`/`Dict` are `JVal` here because the handlers feed them
unvalidated payload values. -/
structure ContextData where
  context_id : String
  context_type : JVal
  data : JVal
  metadata : JVal
  expires_at : Option Int
  created_at : Int
  deriving Repr, DecidableEq

/-- Models `ContextData.is_expired`: true iff `expires_at` is set and
`datetime.now() > expires_at`. -/
def ContextData.is_expired (ctx : ContextData) (now : Int) : Bool :=
  match ctx.expires_at with
  | none => false
  | some e => decide (e < now)

/-- Models `AgentInfo` dataclass (`protocol.py` lines 124-133). -/
structure AgentInfo where
  agent_id : String
  agent_type : AgentType
  name : JVal
  capabilities : JVal
  status : JVal
  last_seen : Int
  metadata : JVal
  deriving Repr, DecidableEq

/-- Models `Conversation` dataclass (`conversation.py` lines 31-41).  The
`threads` mapping is omitted: no operation modelled here touches it and
the store never persists it. -/
structure Conversation where
  conversation_id : String
  title : JVal
  participants : JVal
  created_at : Int
  updated_at : Int
  status : String
  metadata : JVal
  deriving Repr, DecidableEq

/-- Association-list lookup, modelling Python `dict.get` on a
string-keyed dict. -/
def alGet {α : Type} (l : List (String × α)) (k : String) : Option α :=
  match l with
  | [] => none
  | (k', v) :: rest => if k' = k then some v else alGet rest k

/-- Association-list assignment `d[k] = v`: updates an existing key in
place, appends a new one (Python dict insertion order). -/
def alInsert {α : Type} (l : List (String × α)) (k : String) (v : α) :
    List (String × α) :=
  match l with
  | [] => [(k, v)]
  | (k', v') :: rest =>
      if k' = k then (k, v) :: rest else (k', v') :: alInsert rest k v

/-- Association-list deletion `del d[k]`. -/
def alErase {α : Type} (l : List (String × α)) (k : String) :
    List (String × α) :=
  l.filter (fun kv => kv.1 ≠ k)

/-- Insert into a list kept sorted by `key` descending. -/
def insertByDesc {α : Type} (key : α → Int) (x : α) : List α → List α
  | [] => [x]
  | y :: ys => if key y < key x then x :: y :: ys else y :: insertByDesc key x ys

/-- Sort by `key` descending (models `ORDER BY created_at DESC` /
`sorted(..., reverse=True)`; no claim depends on tie order). -/
def sortByDesc {α : Type} (key : α → Int) : List α → List α
  | [] => []
  | x :: xs => insertByDesc key x (sortByDesc key xs)

/-- The SQLite database (`memory_store.py`), modelled as in-memory rows.
Storage I/O failures are not modelled: every write commits.  The
`conversation_threads` table is unused by the modelled operations. -/
structure Store where
  contexts : List ContextData
  messages : List MCPMessage
  conversations : List Conversation
  agents : List AgentInfo
  deriving Repr, DecidableEq

/-- Models `MemoryStore.store_context` (lines 109-130): `INSERT OR REPLACE`
keyed by `context_id` (replace = delete conflicting row, append new). -/
def Store.store_context (st : Store) (ctx : ContextData) : Store × Bool :=
  ({ st with contexts :=
      (st.contexts.filter (fun c => c.context_id ≠ ctx.context_id)) ++ [ctx] },
   true)

/-- Models `MemoryStore.delete_context` (lines 195-205): hard delete; returns
whether a row was removed (`cursor.rowcount > 0`). -/
def Store.delete_context (st : Store) (cid : String) : Store × Bool :=
  ({ st with contexts := st.contexts.filter (fun c => c.context_id ≠ cid) },
   st.contexts.any (fun c => c.context_id == cid))

/-- Models `MemoryStore.retrieve_context` (lines 132-162): load by id; an
expired row is deleted as a side effect and `None` is returned. -/
def Store.retrieve_context (st : Store) (now : Int) (cid : String) :
    Store × Option ContextData :=
  match st.contexts.find? (fun c => c.context_id == cid) with
  | none => (st, none)
  | some ctx =>
      if ctx.is_expired now then ((st.delete_context cid).1, none)
      else (st, some ctx)

/-- Models `MemoryStore.retrieve_contexts_by_type` (lines 164-193): rows of the
type, newest-created first; expired rows are deleted as encountered and
excluded from the result.  (The source deletes by `context_id`; with the
id-keyed upsert above the two are the same.) -/
def Store.retrieve_contexts_by_type (st : Store) (now : Int) (ty : JVal) :
    Store × List ContextData :=
  let rows := sortByDesc (fun c => c.created_at)
    (st.contexts.filter (fun c => c.context_type == ty))
  let alive := rows.filter (fun c => !c.is_expired now)
  let kept := st.contexts.filter (fun c => !(c.context_type == ty && c.is_expired now))
  ({ st with contexts := kept }, alive)

/-- Models `MemoryStore.store_message` (lines 207-232): plain `INSERT`; a
duplicate message id violates the primary key, which the source catches
and reports as `False`. -/
def Store.store_message (st : Store) (m : MCPMessage) : Store × Bool :=
  if st.messages.any (fun m' => m'.id == m.id) then (st, false)
  else ({ st with messages := st.messages ++ [m] }, true)

/-- Models `MemoryStore.store_conversation` (lines 266-288): upsert by
conversation id. -/
def Store.store_conversation (st : Store) (c : Conversation) : Store × Bool :=
  ({ st with conversations :=
      (st.conversations.filter
        (fun c' => c'.conversation_id ≠ c.conversation_id)) ++ [c] },
   true)

/-- Models `MemoryStore.get_conversation` (lines 290-314). -/
def Store.get_conversation (st : Store) (cid : String) : Option Conversation :=
  st.conversations.find? (fun c => c.conversation_id == cid)

/-- Models `MemoryStore.store_agent` (lines 354-376): upsert by agent id. -/
def Store.store_agent (st : Store) (a : AgentInfo) : Store × Bool :=
  ({ st with agents :=
      (st.agents.filter (fun a' => a'.agent_id ≠ a.agent_id)) ++ [a] },
   true)

/-- Models `MemoryStore.get_agent` (lines 378-403). -/
def Store.get_agent (st : Store) (aid : String) : Option AgentInfo :=
  st.agents.find? (fun a => a.agent_id == aid)

/-- Models `MemoryStore.cleanup_expired_contexts` (lines 440-454): bulk
`DELETE WHERE expires_at IS NOT NULL AND expires_at < now`; returns the
number of rows removed. -/
def Store.cleanup_expired_contexts (st : Store) (now : Int) : Store × Nat :=
  ({ st with contexts := st.contexts.filter (fun c => !c.is_expired now) },
   (st.contexts.filter (fun c => c.is_expired now)).length)

/-- The MCP server's mutable state: the shared `MemoryStore` plus the
in-memory caches of `ContextManager` (`active_contexts`,
`registered_agents`) and `ConversationManager` (`active_conversations`). -/
structure ServerState where
  store : Store
  active_contexts : List (String × ContextData)
  registered_agents : List (String × AgentInfo)
  active_conversations : List (String × Conversation)
  deriving Repr, DecidableEq

/-- A freshly initialised server (empty database, empty caches). -/
def ServerState.empty : ServerState := ⟨⟨[], [], [], []⟩, [], [], []⟩

/-- Python `d.update(d2)` on dicts: merge, right side wins. -/
def dictUpdate (d d' : Dict) : Dict :=
  d'.foldl (fun acc kv => dset acc kv.1 kv.2) d

/-- Models `timedelta(minutes=expires_in_minutes)` applied when the payload value
is truthy (`context_manager.py` lines 117-119): integers and `True` give a
relative expiry; any other truthy value raises `TypeError`. -/
def expiresAtOf (v : Option JVal) (now : Int) : Except String (Option Int) :=
  match v with
  | none => .ok none
  | some w =>
      if jTruthy w then
        match w with
        | .int n => .ok (some (now + n))
        | .bool _ => .ok (some (now + 1))
        | _ => .error "TypeError: unsupported type for timedelta"
      else .ok none

namespace ContextManager

/-- Models `ContextManager.register_agent` (lines 26-47): construct the record,
cache it, persist it, return the store flag. -/
def register_agent (s : ServerState) (now : Int) (aid : String)
    (aty : AgentType) (name cap meta : JVal) : ServerState × Bool :=
  let agent : AgentInfo :=
    ⟨aid, aty, name, if jTruthy cap then cap else .arr [],
     .str "active", now, if jTruthy meta then meta else .obj []⟩
  let (st, ok) := s.store.store_agent agent
  ({ s with registered_agents := alInsert s.registered_agents aid agent,
            store := st }, ok)

/-- Models `ContextManager.update_agent_status` (lines 57-68): no-op returning
`False` when the agent is not in the in-memory cache; otherwise mutates
status/last_seen, merges truthy metadata (raising if either side is not a
dict, after status/last_seen were already mutated in place), persists and
returns the store flag. -/
def update_agent_status (s : ServerState) (now : Int) (aid : String)
    (status meta : JVal) : ServerState × Except String Bool :=
  match alGet s.registered_agents aid with
  | none => (s, .ok false)
  | some agent =>
      let agent1 := { agent with status := status, last_seen := now }
      if jTruthy meta then
        match agent1.metadata, meta with
        | .obj kvs, .obj kvs' =>
            let agent2 := { agent1 with metadata := .obj (dictUpdate kvs kvs') }
            let (st, ok) := s.store.store_agent agent2
            ({ s with registered_agents := alInsert s.registered_agents aid agent2,
                      store := st }, .ok ok)
        | _, _ =>
            ({ s with registered_agents := alInsert s.registered_agents aid agent1 },
             .error "TypeError: metadata update")
      else
        let (st, ok) := s.store.store_agent agent1
        ({ s with registered_agents := alInsert s.registered_agents aid agent1,
                  store := st }, .ok ok)

/-- Models `ContextManager.get_agent` (lines 70-81): cache first, store
fallback populating the cache. -/
def get_agent (s : ServerState) (aid : String) : ServerState × Option AgentInfo :=
  match alGet s.registered_agents aid with
  | some a => (s, some a)
  | none =>
      match s.store.get_agent aid with
      | some a =>
          ({ s with registered_agents := alInsert s.registered_agents aid a }, some a)
      | none => (s, none)

/-- Models `ContextManager.store_context` (lines 114-138): compute the absolute
expiry, construct the context (`fresh` models the uuid default), cache it
and persist it; the store flag is ignored and the context returned. -/
def store_context (s : ServerState) (now : Int) (fresh : String)
    (cty cdata cmeta : JVal) (expMin : Option JVal) :
    Except String (ServerState × ContextData) :=
  match expiresAtOf expMin now with
  | .error e => .error e
  | .ok eAt =>
      let ctx : ContextData :=
        ⟨fresh, cty, cdata, if jTruthy cmeta then cmeta else .obj [], eAt, now⟩
      let (st, _) := s.store.store_context ctx
      .ok ({ s with active_contexts := alInsert s.active_contexts fresh ctx,
                    store := st }, ctx)

/-- Store-fallback half of `ContextManager.retrieve_context`
(lines 152-158). -/
def retrieve_context_fallback (s : ServerState) (now : Int) (cid : String) :
    ServerState × Option ContextData :=
  let (st, ctxOpt) := s.store.retrieve_context now cid
  let s1 := { s with store := st }
  match ctxOpt with
  | some ctx =>
      if !ctx.is_expired now then
        ({ s1 with active_contexts := alInsert s1.active_contexts cid ctx }, some ctx)
      else (s1, none)
  | none => (s1, none)

/-- Models `ContextManager.retrieve_context` (lines 140-158): cache first with
lazy expiry eviction (cache delete + store delete), then store fallback. -/
def retrieve_context (s : ServerState) (now : Int) (cid : String) :
    ServerState × Option ContextData :=
  match alGet s.active_contexts cid with
  | some ctx =>
      if !ctx.is_expired now then (s, some ctx)
      else
        let s1 := { s with active_contexts := alErase s.active_contexts cid }
        let (st, _) := s1.store.delete_context cid
        retrieve_context_fallback { s1 with store := st } now cid
  | none => retrieve_context_fallback s now cid

/-- Models `ContextManager.retrieve_contexts_by_type` (lines 160-178): merge the
non-expired cached contexts of the type with the store's rows,
deduplicated by id (cache wins), caching the store-only ones, sorted
newest-created first. -/
def retrieve_contexts_by_type (s : ServerState) (now : Int) (ty : JVal) :
    ServerState × List ContextData :=
  let actives := (s.active_contexts.map Prod.snd).filter
    (fun c => c.context_type == ty && !c.is_expired now)
  let (st, stored) := s.store.retrieve_contexts_by_type now ty
  let addition := stored.filter
    (fun c => !(actives.any (fun a => a.context_id == c.context_id)))
  let cache := addition.foldl (fun acc c => alInsert acc c.context_id c)
    s.active_contexts
  (⟨st, cache, s.registered_agents, s.active_conversations⟩,
   sortByDesc (fun c => c.created_at) (actives ++ addition))

/-- Models `ContextManager.delete_context` (lines 180-187). -/
def delete_context (s : ServerState) (cid : String) : ServerState × Bool :=
  let (st, ok) := s.store.delete_context cid
  ({ s with active_contexts := alErase s.active_contexts cid, store := st }, ok)

/-- Models `if 'shared_with' not in context.metadata: context.metadata['shared_with'] = []`
(`context_manager.py` lines 202-203). -/
def sharedWithInit (kvs : Dict) : Dict :=
  if (dget kvs "shared_with").isNone then dset kvs "shared_with" (.arr []) else kvs

/-- Models `ContextManager.share_context_with_agent` (lines 189-215): resolve
context then agent (each lookup with its cache side effects), fail with
`False` if either is missing; initialise `metadata['shared_with']`, and
if the agent is not yet listed, append it, stamp `last_shared`, persist
and return `True`; return `False` when already shared.  Non-dict
metadata, or a `shared_with` value the `in`/`append` operations reject,
raises (modelled as `error`), which the calling handler converts into a
failure response. -/
def share_context_with_agent (s : ServerState) (now : Int)
    (cid aid : String) : ServerState × Except String Bool :=
  let (s1, ctxOpt) := retrieve_context s now cid
  match ctxOpt with
  | none => (s1, .ok false)
  | some ctx =>
      let (s2, agOpt) := get_agent s1 aid
      match agOpt with
      | none => (s2, .ok false)
      | some _ =>
          match ctx.metadata with
          | .obj kvs =>
              let kvs1 := sharedWithInit kvs
              let sw := (dget kvs1 "shared_with").getD (.arr [])
              match jContainsE sw aid with
              | .error e => (s2, .error e)
              | .ok true => (s2, .ok false)
              | .ok false =>
                  match sw with
                  | .arr xs =>
                      let kvs2 := dset (dset kvs1 "shared_with"
                        (.arr (xs ++ [.str aid]))) "last_shared" (.time now)
                      let ctx' := { ctx with metadata := .obj kvs2 }
                      let (st, _) := s2.store.store_context ctx'
                      (⟨st, alInsert s2.active_contexts cid ctx',
                        s2.registered_agents, s2.active_conversations⟩, .ok true)
                  | _ => (s2, .error "AttributeError: append")
          | _ => (s2, .error "TypeError: shared_with membership")

/-- Models `ContextManager.create_conversation_context` (lines 239-259):
a `conversation`-typed context seeded with the conversation id and
participants, `shared_with` pre-set to a copy of the participants, no
expiry. -/
def create_conversation_context (s : ServerState) (now : Int)
    (fresh : String) (cid : String) (participants : JVal) (initial : Dict) :
    Except String (ServerState × ContextData) :=
  match jCopyE participants with
  | .error e => .error e
  | .ok ps =>
      let cdata := JVal.obj (dictUpdate
        [("conversation_id", .str cid), ("participants", participants),
         ("created_at", .time now)] initial)
      let cmeta := JVal.obj
        [("conversation_id", .str cid), ("shared_with", ps)]
      store_context s now fresh (.str "conversation") cdata cmeta none

/-- Scan loop of `ContextManager.update_conversation_context`
(lines 263-275). -/
def update_conversation_context_go (now : Int) (target : JVal)
    (updates : Dict) : ServerState → List ContextData →
    ServerState × Except String Bool
  | s, [] => (s, .ok false)
  | s, ctx :: rest =>
      match ctx.data with
      | .obj kvs =>
          let hit := match dget kvs "conversation_id" with
            | some v => v == target
            | none => false
          if hit then
            let data' := JVal.obj (dictUpdate kvs updates)
            match ctx.metadata with
            | .obj mkvs =>
                let meta' := JVal.obj (dset mkvs "last_updated" (.time now))
                let ctx' := { ctx with data := data', metadata := meta' }
                let (st, _) := s.store.store_context ctx'
                (⟨st, alInsert s.active_contexts ctx.context_id ctx',
                  s.registered_agents, s.active_conversations⟩, .ok true)
            | _ =>
                let cache := alInsert s.active_contexts ctx.context_id { ctx with data := data' }
                ({ s with active_contexts := cache },
                 .error "TypeError: metadata assignment")
          else update_conversation_context_go now target updates s rest
      | _ => (s, .error "AttributeError: data get")

/-- Models `ContextManager.update_conversation_context` (lines 261-275): scan
the `conversation`-typed contexts for one whose `data.conversation_id`
matches, merge the updates into its data, stamp `last_updated`, persist;
`False` when no context matches. -/
def update_conversation_context (s : ServerState) (now : Int)
    (target : JVal) (updates : Dict) : ServerState × Except String Bool :=
  let (s1, ctxs) := retrieve_contexts_by_type s now (.str "conversation")
  update_conversation_context_go now target updates s1 ctxs

/-- Models `ContextManager.cleanup_expired_contexts` (lines 277-295): evict
expired cache entries, then the store's bulk cleanup; return the sum of
both counts. -/
def cleanup_expired_contexts (s : ServerState) (now : Int) :
    ServerState × Nat :=
  let expired := s.active_contexts.filter (fun kv => kv.2.is_expired now)
  let cache := s.active_contexts.filter (fun kv => !kv.2.is_expired now)
  let (st, cleaned) := s.store.cleanup_expired_contexts now
  ({ s with active_contexts := cache, store := st },
   expired.length + cleaned)

end ContextManager

/-- Models `Conversation.add_participant` (`conversation.py` lines 43-50):
append the agent if absent (updating the timestamp) and return whether
anything changed.  Python `in`/`append` on a non-list participants value
raises. -/
def Conversation.add_participant (c : Conversation) (now : Int)
    (aid : String) : Except String (Conversation × Bool) :=
  match jContainsE c.participants aid with
  | .error e => .error e
  | .ok true => .ok (c, false)
  | .ok false =>
      match c.participants with
      | .arr xs =>
          .ok ({ c with participants := .arr (xs ++ [.str aid]),
                        updated_at := now }, true)
      | _ => .error "AttributeError: append"

namespace ConversationManager

/-- Models `ConversationManager.create_conversation` (lines 123-139): build a
conversation under a fresh uuid with a copy of the participants, cache it
and persist it. -/
def create_conversation (s : ServerState) (now : Int) (fresh : String)
    (title participants metadata : JVal) :
    ServerState × Except String Conversation :=
  match jCopyE participants with
  | .error e => (s, .error e)
  | .ok ps =>
      let conv : Conversation :=
        ⟨fresh, title, ps, now, now, "active",
         if jTruthy metadata then metadata else .obj []⟩
      let (st, _) := s.store.store_conversation conv
      (⟨st, s.active_contexts, s.registered_agents,
        alInsert s.active_conversations fresh conv⟩, .ok conv)

/-- Models `ConversationManager.get_conversation` (lines 141-154): cache first,
store fallback populating the cache. -/
def get_conversation (s : ServerState) (cid : String) :
    ServerState × Option Conversation :=
  match alGet s.active_conversations cid with
  | some c => (s, some c)
  | none =>
      match s.store.get_conversation cid with
      | some c =>
          ({ s with active_conversations := alInsert s.active_conversations cid c },
           some c)
      | none => (s, none)

/-- Second half of `add_message_to_conversation` (lines 177-192): add
sender and (truthy) recipient as participants, refresh the timestamp,
persist the message and the conversation.  `cacheKey` is the key under
which the conversation object is aliased in the cache, so in-place
mutations that happened before a raise are visible there. -/
def add_message_finish (s : ServerState) (now : Int) (cacheKey : String)
    (msg : MCPMessage) (conv : Conversation) :
    ServerState × Except String Bool :=
  match conv.add_participant now msg.sender_id with
  | .error e => (s, .error e)
  | .ok (conv1, _) =>
      let next : Except String Conversation :=
        if strTruthyO msg.recipient_id then
          match conv1.add_participant now (msg.recipient_id.getD "") with
          | .error e => .error e
          | .ok (c2, _) => .ok c2
        else .ok conv1
      match next with
      | .error e =>
          ({ s with active_conversations :=
              alInsert s.active_conversations cacheKey conv1 }, .error e)
      | .ok conv2 =>
          let conv3 := { conv2 with updated_at := now }
          let st1 := (s.store.store_message msg).1
          let st2 := (st1.store_conversation conv3).1
          (⟨st2, s.active_contexts, s.registered_agents,
            alInsert s.active_conversations cacheKey conv3⟩, .ok true)

/-- Models `ConversationManager.add_message_to_conversation` (lines 156-192)
with the default `create_if_missing=True` used by every modelled caller:
fail fast on a missing/empty conversation id; look the conversation up;
auto-create one (under a fresh uuid) when none exists; then add
participants and persist. -/
def add_message_to_conversation (s : ServerState) (now : Int)
    (fresh : String) (msg : MCPMessage) : ServerState × Except String Bool :=
  match msg.conversation_id with
  | none => (s, .ok false)
  | some cid =>
      if cid = "" then (s, .ok false)
      else
        let (s1, convOpt) := get_conversation s cid
        match convOpt with
        | some conv => add_message_finish s1 now cid msg conv
        | none =>
            match create_conversation s1 now fresh
                (.str ("Conversation with " ++ msg.sender_id))
                (.arr [.str msg.sender_id])
                (.obj [("auto_created", .bool true)]) with
            | (s2, .error e) => (s2, .error e)
            | (s2, .ok conv) =>
                add_message_finish s2 now conv.conversation_id msg conv

/-- Models `ConversationManager.archive_conversation` (lines 228-245): set the
status to archived, persist, evict from the active cache. -/
def archive_conversation (s : ServerState) (now : Int) (cid : String) :
    ServerState × Bool :=
  let (s1, convOpt) := get_conversation s cid
  match convOpt with
  | none => (s1, false)
  | some conv =>
      let conv1 := { conv with status := "archived", updated_at := now }
      let (st, _) := s1.store.store_conversation conv1
      (⟨st, s1.active_contexts, s1.registered_agents,
        alErase s1.active_conversations cid⟩, true)

end ConversationManager

/-- The fresh uuids a single `process_message` call may draw
(`uuid.uuid4()` defaults), threaded explicitly. -/
structure FreshIds where
  msgId : String
  respId : String
  ctxId : String
  convId : String
  convCtxId : String
  autoConvId : String
  deriving Repr, DecidableEq

namespace MCPServer

/-- A success response addressed back to the sender
(`MCPResponse(sender_id="mcp_server", sender_type=MONITOR_AGENT, ...)`). -/
def okResp (respId : String) (now : Int) (recipient : Option String)
    (reqId : String) (rdata : Dict) : MCPResponse where
  toMCPMessage := ⟨respId, .context_share, "mcp_server", .monitor_agent,
    recipient, now, [], none, none⟩
  request_id := reqId
  success := true
  error_message := none
  response_data := rdata

/-- A handler-level failure response (`success=False`,
`error_message=str(e)`; no recipient, empty response data). -/
def errResp (respId : String) (now : Int) (reqId : String) (e : String) :
    MCPResponse where
  toMCPMessage := ⟨respId, .context_share, "mcp_server", .monitor_agent,
    none, now, [], none, none⟩
  request_id := reqId
  success := false
  error_message := some e
  response_data := []

/-- A response whose `success` mirrors a manager boolean, with a
`message` text in the response data and no error message. -/
def statusResp (respId : String) (now : Int) (recipient : Option String)
    (reqId : String) (success : Bool) (txt : String) : MCPResponse where
  toMCPMessage := ⟨respId, .context_share, "mcp_server", .monitor_agent,
    recipient, now, [], none, none⟩
  request_id := reqId
  success := success
  error_message := none
  response_data := [("message", .str txt)]

/-- The JSON object a retrieved context is rendered to
(`mcp_server.py` lines 353-359 and 382-388). -/
def ctxJson (ctx : ContextData) : JVal :=
  .obj [("context_id", .str ctx.context_id),
        ("context_type", ctx.context_type),
        ("data", ctx.data),
        ("metadata", ctx.metadata),
        ("created_at", .time ctx.created_at)]

/-- Models `MCPServer._handle_context_share` (lines 134-177): store a context
from the payload, share it with a truthy recipient, answer with the new
context id; any raise is converted into a failure response. -/
def handleContextShare (s : ServerState) (now : Int) (f : FreshIds)
    (m : MCPMessage) : ServerState × MCPResponse :=
  let cty := (dget m.payload "context_type").getD (.str "general")
  let cdata := (dget m.payload "data").getD (.obj [])
  let cmeta := (dget m.payload "metadata").getD (.obj [])
  let expMin := dget m.payload "expires_in_minutes"
  match ContextManager.store_context s now f.ctxId cty cdata cmeta expMin with
  | .error e => (s, errResp f.respId now m.id e)
  | .ok (s1, ctx) =>
      let rdata : Dict := [("context_id", .str ctx.context_id),
        ("message", .str "Context shared successfully")]
      if strTruthyO m.recipient_id then
        match ContextManager.share_context_with_agent s1 now ctx.context_id
            (m.recipient_id.getD "") with
        | (s2, .error e) => (s2, errResp f.respId now m.id e)
        | (s2, .ok _) => (s2, okResp f.respId now (some m.sender_id) m.id rdata)
      else (s1, okResp f.respId now (some m.sender_id) m.id rdata)

/-- Models `MCPServer._handle_conversation_start` (lines 179-220): create the
conversation and its companion conversation context. -/
def handleConversationStart (s : ServerState) (now : Int) (f : FreshIds)
    (m : MCPMessage) : ServerState × MCPResponse :=
  let title := (dget m.payload "title").getD
    (.str ("Conversation started by " ++ m.sender_id))
  let participants := (dget m.payload "participants").getD
    (.arr [.str m.sender_id])
  let metadata := (dget m.payload "metadata").getD (.obj [])
  match ConversationManager.create_conversation s now f.convId title
      participants metadata with
  | (s1, .error e) => (s1, errResp f.respId now m.id e)
  | (s1, .ok conv) =>
      match ContextManager.create_conversation_context s1 now f.convCtxId
          conv.conversation_id participants
          [("title", title), ("started_by", .str m.sender_id)] with
      | .error e => (s1, errResp f.respId now m.id e)
      | .ok (s2, _) =>
          (s2, okResp f.respId now (some m.sender_id) m.id
            [("conversation_id", .str conv.conversation_id),
             ("message", .str "Conversation started successfully")])

/-- Models `MCPServer._handle_conversation_message` (lines 222-252): update the
conversation context with last-message info; always succeeds unless the
update raises. -/
def handleConversationMessage (s : ServerState) (now : Int) (f : FreshIds)
    (m : MCPMessage) : ServerState × MCPResponse :=
  let ok := okResp f.respId now (some m.sender_id) m.id
    [("message", .str "Message processed successfully")]
  if strTruthyO m.conversation_id then
    match ContextManager.update_conversation_context s now
        (.str (m.conversation_id.getD ""))
        [("last_message_at", .time m.timestamp),
         ("last_message_from", .str m.sender_id)] with
    | (s1, .error e) => (s1, errResp f.respId now m.id e)
    | (s1, .ok _) => (s1, ok)
  else (s, ok)

/-- Archive-and-update step of `_handle_conversation_end`
(lines 259-280) once a hashable conversation id is in hand. -/
def conversationEndArchive (s : ServerState) (now : Int) (f : FreshIds)
    (m : MCPMessage) (c : String) (target : JVal) :
    ServerState × MCPResponse :=
  match ConversationManager.archive_conversation s now c with
  | (s1, false) =>
      (s1, statusResp f.respId now (some m.sender_id) m.id false
        "Conversation not found")
  | (s1, true) =>
      match ContextManager.update_conversation_context s1 now target
          [("ended_at", .time m.timestamp), ("ended_by", .str m.sender_id)] with
      | (s2, .error e) => (s2, errResp f.respId now m.id e)
      | (s2, .ok _) =>
          (s2, statusResp f.respId now (some m.sender_id) m.id true
            "Conversation ended successfully")

/-- Models `MCPServer._handle_conversation_end` (lines 254-297): archive the
conversation named by the payload (falling back to the envelope), update
its context, report `success=False` when it cannot be found; a missing id
or a raise yields a failure response.  A non-string id is never found
(cache keys and stored ids are strings); an unhashable one raises. -/
def handleConversationEnd (s : ServerState) (now : Int) (f : FreshIds)
    (m : MCPMessage) : ServerState × MCPResponse :=
  let cidVal : Option JVal :=
    match dget m.payload "conversation_id" with
    | some v => some v
    | none => m.conversation_id.map .str
  if !jTruthyO cidVal then
    (s, errResp f.respId now m.id "No conversation_id provided")
  else
    match cidVal with
    | some (.str c) => conversationEndArchive s now f m c (.str c)
    | some (.time t) => conversationEndArchive s now f m (timeStr t) (.time t)
    | some (.arr _) =>
        (s, errResp f.respId now m.id "TypeError: unhashable type")
    | some (.obj _) =>
        (s, errResp f.respId now m.id "TypeError: unhashable type")
    | _ =>
        (s, statusResp f.respId now (some m.sender_id) m.id false
          "Conversation not found")

/-- Models `MCPServer._handle_memory_store` (lines 299-333): store a context
typed by `memory_type`; no expiry is computed and no recipient sharing is
performed. -/
def handleMemoryStore (s : ServerState) (now : Int) (f : FreshIds)
    (m : MCPMessage) : ServerState × MCPResponse :=
  let mty := (dget m.payload "memory_type").getD (.str "general")
  let cdata := (dget m.payload "data").getD (.obj [])
  let cmeta := (dget m.payload "metadata").getD (.obj [])
  match ContextManager.store_context s now f.ctxId mty cdata cmeta none with
  | .error e => (s, errResp f.respId now m.id e)
  | .ok (s1, ctx) =>
      (s1, okResp f.respId now (some m.sender_id) m.id
        [("context_id", .str ctx.context_id),
         ("message", .str "Memory stored successfully")])

/-- Single-context branch of `_handle_memory_retrieve` (lines 342-369). -/
def memoryRetrieveOne (s : ServerState) (now : Int) (f : FreshIds)
    (m : MCPMessage) (c : String) : ServerState × MCPResponse :=
  let (s1, ctxOpt) := ContextManager.retrieve_context s now c
  match ctxOpt with
  | some ctx =>
      (s1, okResp f.respId now (some m.sender_id) m.id
        [("context", ctxJson ctx)])
  | none => (s1, errResp f.respId now m.id "Context not found")

/-- Models `MCPServer._handle_memory_retrieve` (lines 335-409): a truthy
`context_id` fetches one context ("Context not found" on a miss); else a
truthy `memory_type` fetches all live contexts of the type; else the call
fails with "Must provide either context_id or memory_type". -/
def handleMemoryRetrieve (s : ServerState) (now : Int) (f : FreshIds)
    (m : MCPMessage) : ServerState × MCPResponse :=
  let cidV := dget m.payload "context_id"
  let mtyV := dget m.payload "memory_type"
  if jTruthyO cidV then
    match cidV with
    | some (.str c) => memoryRetrieveOne s now f m c
    | some (.time t) => memoryRetrieveOne s now f m (timeStr t)
    | some (.arr _) =>
        (s, errResp f.respId now m.id "TypeError: unhashable type")
    | some (.obj _) =>
        (s, errResp f.respId now m.id "TypeError: unhashable type")
    | _ => (s, errResp f.respId now m.id "Context not found")
  else if jTruthyO mtyV then
    let (s1, ctxs) := ContextManager.retrieve_contexts_by_type s now
      (mtyV.getD .null)
    (s1, okResp f.respId now (some m.sender_id) m.id
      [("contexts", .arr (ctxs.map ctxJson))])
  else
    (s, errResp f.respId now m.id
      "Must provide either context_id or memory_type")

/-- Models `MCPServer._handle_agent_register` (lines 411-445): resolve the agent
type (raising on an unknown value), register, mirror the result. -/
def handleAgentRegister (s : ServerState) (now : Int) (f : FreshIds)
    (m : MCPMessage) : ServerState × MCPResponse :=
  let atyV := (dget m.payload "agent_type").getD (.str "external_client")
  match AgentType.ofJVal atyV with
  | none => (s, errResp f.respId now m.id "ValueError: not a valid AgentType")
  | some aty =>
      let name := (dget m.payload "name").getD
        (.str ("Agent " ++ m.sender_id))
      let cap := (dget m.payload "capabilities").getD (.arr [])
      let meta := (dget m.payload "metadata").getD (.obj [])
      let (s1, ok) := ContextManager.register_agent s now m.sender_id aty
        name cap meta
      (s1, statusResp f.respId now (some m.sender_id) m.id ok
        (if ok then "Agent registered successfully" else "Registration failed"))

/-- Models `MCPServer._handle_agent_status` (lines 447-477): delegate to
`update_agent_status`, mirror its boolean. -/
def handleAgentStatus (s : ServerState) (now : Int) (f : FreshIds)
    (m : MCPMessage) : ServerState × MCPResponse :=
  let status := (dget m.payload "status").getD (.str "active")
  let meta := (dget m.payload "metadata").getD (.obj [])
  match ContextManager.update_agent_status s now m.sender_id status meta with
  | (s1, .error e) => (s1, errResp f.respId now m.id e)
  | (s1, .ok ok) =>
      (s1, statusResp f.respId now (some m.sender_id) m.id ok
        (if ok then "Status updated successfully" else "Update failed"))

/-- Models `MCPServer._handle_system_broadcast` (lines 479-501): acknowledge. -/
def handleSystemBroadcast (s : ServerState) (now : Int) (f : FreshIds)
    (m : MCPMessage) : ServerState × MCPResponse :=
  (s, statusResp f.respId now (some m.sender_id) m.id true
    "Broadcast received")

/-- The fixed type→handler table (`mcp_server.py` lines 34-44): it covers
all nine message types, so the defensive "no handler" branch of
`process_message` is unreachable. -/
def handleMessage (s : ServerState) (now : Int) (f : FreshIds)
    (m : MCPMessage) : ServerState × MCPResponse :=
  match m.type with
  | .context_share => handleContextShare s now f m
  | .conversation_start => handleConversationStart s now f m
  | .conversation_message => handleConversationMessage s now f m
  | .conversation_end => handleConversationEnd s now f m
  | .memory_store => handleMemoryStore s now f m
  | .memory_retrieve => handleMemoryRetrieve s now f m
  | .agent_register => handleAgentRegister s now f m
  | .agent_status => handleAgentStatus s now f m
  | .system_broadcast => handleSystemBroadcast s now f m

/-- The response built by the top-level `except` of `process_message`
(no `request_id` is copied there: it stays at its `""` default). -/
def topFail (respId : String) (now : Int) (e : String) : MCPResponse where
  toMCPMessage := ⟨respId, .context_share, "mcp_server", .monitor_agent,
    none, now, [], none, none⟩
  request_id := ""
  success := false
  error_message := some e
  response_data := []

/-- Models `MCPServer.process_message` (lines 96-132): decode, dispatch to the
handler, then (for a truthy conversation id) record the message in its
conversation; every raise escaping those steps is caught and converted
into a failure response, so exactly one `MCPResponse` is always
returned. -/
def process_message (s : ServerState) (now : Int) (f : FreshIds)
    (raw : WireDict) : ServerState × MCPResponse :=
  match MCPMessage.from_dict raw f.msgId now with
  | .error e => (s, topFail f.respId now e)
  | .ok msg =>
      let (s1, resp) := handleMessage s now f msg
      if strTruthyO msg.conversation_id then
        match ConversationManager.add_message_to_conversation s1 now
            f.autoConvId msg with
        | (s2, .ok _) => (s2, resp)
        | (s2, .error e) => (s2, topFail f.respId now e)
      else (s1, resp)

end MCPServer

instance {ε α : Type} [DecidableEq ε] [DecidableEq α] :
    DecidableEq (Except ε α) := fun a b =>
  match a, b with
  | .ok x, .ok y =>
      if h : x = y then isTrue (by rw [h])
      else isFalse (by intro he; injection he; contradiction)
  | .error x, .error y =>
      if h : x = y then isTrue (by rw [h])
      else isFalse (by intro he; injection he; contradiction)
  | .ok _, .error _ => isFalse (by intro h; cases h)
  | .error _, .ok _ => isFalse (by intro h; cases h)

theorem alGet_alInsert_self {α : Type} (l : List (String × α)) (k : String)
    (v : α) : alGet (alInsert l k v) k = some v := by
  induction l with
  | nil => simp [alInsert, alGet]
  | cons kv rest ih =>
      by_cases h : kv.1 = k
      · simp [alInsert, h, alGet]
      · simp [alInsert, h, alGet, ih]

theorem alGet_alInsert_ne {α : Type} (l : List (String × α)) {k k' : String}
    (h : k ≠ k') (v : α) : alGet (alInsert l k v) k' = alGet l k' := by
  induction l with
  | nil => simp [alInsert, alGet, h]
  | cons kv rest ih =>
      by_cases hk : kv.1 = k
      · simp [alInsert, hk, alGet, h]
      · simp [alInsert, hk, alGet, ih]

theorem alGet_alErase_self {α : Type} (l : List (String × α)) (k : String) :
    alGet (alErase l k) k = none := by
  induction l with
  | nil => simp [alErase, alGet]
  | cons kv rest ih =>
      by_cases h : kv.1 = k
      · simpa [alErase, h] using ih
      · simpa [alErase, h, alGet] using ih

theorem dget_dset_self (d : Dict) (k : String) (v : JVal) :
    dget (dset d k v) k = some v := by
  induction d with
  | nil => simp [dset, dget]
  | cons kv rest ih =>
      by_cases h : kv.1 = k
      · simp [dset, h, dget]
      · simp [dset, h, dget, ih]

theorem dget_dset_ne (d : Dict) {k k' : String} (h : k ≠ k') (v : JVal) :
    dget (dset d k v) k' = dget d k' := by
  induction d with
  | nil => simp [dset, dget, h]
  | cons kv rest ih =>
      by_cases hk : kv.1 = k
      · simp [dset, hk, dget, h]
      · simp [dset, hk, dget, ih]

theorem mem_insertByDesc {α : Type} (key : α → Int) (x a : α) (l : List α) :
    a ∈ insertByDesc key x l ↔ a = x ∨ a ∈ l := by
  induction l with
  | nil => simp [insertByDesc]
  | cons y ys ih =>
      by_cases h : key y < key x
      · simp [insertByDesc, h]
      · simp [insertByDesc, h, ih]
        tauto

theorem mem_sortByDesc {α : Type} (key : α → Int) (a : α) (l : List α) :
    a ∈ sortByDesc key l ↔ a ∈ l := by
  induction l with
  | nil => simp [sortByDesc]
  | cons x xs ih => simp [sortByDesc, mem_insertByDesc, ih]

theorem messageTypeOfValue_value (t : MessageType) :
    MessageType.ofValue t.value = some t := by
  cases t <;> rfl

theorem agentTypeOfValue_value (t : AgentType) :
    AgentType.ofValue t.value = some t := by
  cases t <;> rfl

/-- C5: For every message and response envelope m of any of the
protocol's message types, `from_dict(to_dict(m))` reconstructs an
envelope equivalent to m: same id, same message type, same sender id and
sender type, and same payload mapping.  (For the base message the
reconstruction is exact; for requests and responses it is exactly the
base envelope, so id, type, sender and payload all agree.) -/
theorem c5_roundtrip :
    (∀ (m : MCPMessage) (fresh : String) (now : Int),
      MCPMessage.from_dict m.to_dict fresh now = .ok m)
    ∧ (∀ (r : MCPRequest) (fresh : String) (now : Int),
      MCPMessage.from_dict r.to_dict.base fresh now = .ok r.toMCPMessage)
    ∧ (∀ (r : MCPResponse) (fresh : String) (now : Int),
      MCPMessage.from_dict r.to_dict.base fresh now = .ok r.toMCPMessage) := by
  refine ⟨?_, ?_, ?_⟩
  · intro m fresh now
    obtain ⟨mid, ty, sid, sty, rid, ts, pl, cid, tid⟩ := m
    cases ty <;> cases sty <;> rfl
  · intro r fresh now
    obtain ⟨⟨mid, ty, sid, sty, rid, ts, pl, cid, tid⟩, _, _, _⟩ := r
    cases ty <;> cases sty <;> rfl
  · intro r fresh now
    obtain ⟨⟨mid, ty, sid, sty, rid, ts, pl, cid, tid⟩, _, _, _, _⟩ := r
    cases ty <;> cases sty <;> rfl

theorem from_dict_ok_iff (d : WireDict) (fresh : String) (now : Int) :
    (∃ m, MCPMessage.from_dict d fresh now = .ok m) ↔
      ((MessageType.ofValue (d.type.getD "context_share")).isSome = true
       ∧ (AgentType.ofValue (d.sender_type.getD "external_client")).isSome = true
       ∧ ∀ s, d.timestamp ≠ some (.bad s)) := by
  cases hty : MessageType.ofValue (d.type.getD "context_share") with
  | none =>
      simp only [MCPMessage.from_dict, hty]
      constructor
      · rintro ⟨m, hm⟩
        cases hm
      · rintro ⟨h1, _, _⟩
        cases h1
  | some ty =>
      cases hsty : AgentType.ofValue (d.sender_type.getD "external_client") with
      | none =>
          simp only [MCPMessage.from_dict, hty, hsty]
          constructor
          · rintro ⟨m, hm⟩
            cases hm
          · rintro ⟨_, h2, _⟩
            cases h2
      | some sty =>
          cases hts : d.timestamp with
          | none =>
              simp only [MCPMessage.from_dict, hty, hsty, hts]
              constructor
              · intro _
                refine ⟨rfl, rfl, ?_⟩
                intro s hc
                cases hc
              · intro _
                exact ⟨_, rfl⟩
          | some t =>
              cases t with
              | iso t' =>
                  simp only [MCPMessage.from_dict, hty, hsty, hts]
                  constructor
                  · intro _
                    refine ⟨rfl, rfl, ?_⟩
                    intro s hc
                    cases hc
                  · intro _
                    exact ⟨_, rfl⟩
              | bad s' =>
                  simp only [MCPMessage.from_dict, hty, hsty, hts]
                  constructor
                  · rintro ⟨m, hm⟩
                    cases hm
                  · rintro ⟨_, _, h3⟩
                    exact absurd rfl (h3 s')

theorem suppliedMessageType_iff (o : Option String) :
    (∀ ty, o = some ty → (MessageType.ofValue ty).isSome = true) ↔
      (MessageType.ofValue (o.getD "context_share")).isSome = true := by
  cases o with
  | none =>
      have h : MessageType.ofValue "context_share" =
        some .context_share := rfl
      simp [h]
  | some s => simp

theorem suppliedAgentType_iff (o : Option String) :
    (∀ sty, o = some sty → (AgentType.ofValue sty).isSome = true) ↔
      (AgentType.ofValue (o.getD "external_client")).isSome = true := by
  cases o with
  | none =>
      have h : AgentType.ofValue "external_client" =
        some .external_client := rfl
      simp [h]
  | some s => simp

/-- C10: `MCPMessage.from_dict` applied to an empty mapping succeeds
with the documented defaults (type `context_share`, sender type
`external_client`, empty sender id, empty payload, the fresh id, the
current time); and decoding fails exactly when a supplied `type` or
`sender_type` string is not a known enum value or a supplied timestamp
string is malformed. -/
theorem c10_from_dict_defaults :
    (∀ (fresh : String) (now : Int),
      MCPMessage.from_dict WireDict.empty fresh now =
        .ok ⟨fresh, .context_share, "", .external_client, none, now, [],
          none, none⟩)
    ∧ (∀ (d : WireDict) (fresh : String) (now : Int),
      (∃ m, MCPMessage.from_dict d fresh now = .ok m) ↔
        ((∀ ty, d.type = some ty → (MessageType.ofValue ty).isSome = true)
         ∧ (∀ sty, d.sender_type = some sty →
              (AgentType.ofValue sty).isSome = true)
         ∧ (∀ s, d.timestamp ≠ some (.bad s)))) := by
  constructor
  · intro fresh now
    rfl
  · intro d fresh now
    rw [from_dict_ok_iff, suppliedMessageType_iff, suppliedAgentType_iff]

/-- C1: For every input mapping, `process_message` returns exactly one
`MCPResponse` (it is a total function into `ServerState × MCPResponse`)
and never lets an exception propagate: on a decode failure the response
has `success=false` and carries the error as a non-null `error_message`;
and a `memory_retrieve` message whose payload contains neither a truthy
`context_id` nor a truthy `memory_type` yields a response with
`success=false` and a non-null `error_message`, whatever the server state
and whatever else the message contains. -/
theorem c1_process_message_total (s : ServerState) (now : Int)
    (f : FreshIds) (raw : WireDict) :
    (∀ e, MCPMessage.from_dict raw f.msgId now = .error e →
      ((MCPServer.process_message s now f raw).2.success = false
       ∧ (MCPServer.process_message s now f raw).2.error_message = some e))
    ∧ (∀ m, MCPMessage.from_dict raw f.msgId now = .ok m →
        m.type = .memory_retrieve →
        jTruthyO (dget m.payload "context_id") = false →
        jTruthyO (dget m.payload "memory_type") = false →
        ((MCPServer.process_message s now f raw).2.success = false
         ∧ (MCPServer.process_message s now f raw).2.error_message ≠ none)) := by
  constructor
  · intro e he
    simp [MCPServer.process_message, he, MCPServer.topFail]
  · intro m hm hty h1 h2
    have hmr : MCPServer.handleMessage s now f m =
        (s, MCPServer.errResp f.respId now m.id
          "Must provide either context_id or memory_type") := by
      simp [MCPServer.handleMessage, hty, MCPServer.handleMemoryRetrieve,
        h1, h2]
    simp only [MCPServer.process_message, hm, hmr]
    cases hb : strTruthyO m.conversation_id with
    | false => simp [hb, MCPServer.errResp]
    | true =>
        simp only [hb]
        rcases hadd : ConversationManager.add_message_to_conversation s now
          f.autoConvId m with ⟨s2, r⟩
        cases r with
        | ok b => simp [hadd, MCPServer.errResp]
        | error e => simp [hadd, MCPServer.topFail]

/-- Fresh-id supply used by concrete scenarios. -/
def fid0 : FreshIds := ⟨"m0", "r0", "x0", "v0", "vc0", "ac0"⟩

/-- A wire mapping whose `type` is not a known enum value. -/
def c1rawBad : WireDict :=
  ⟨none, some "bogus", none, none, none, none, none, none, none⟩

/-- A `memory_retrieve` wire mapping with an empty payload. -/
def c1rawMR : WireDict :=
  ⟨some "i", some "memory_retrieve", some "a", some "chatbot", none,
   some (.iso 0), some [], none, none⟩

theorem c1_witness :
    ((MCPServer.process_message ServerState.empty 0 fid0 c1rawBad).2.success = false
     ∧ (MCPServer.process_message ServerState.empty 0 fid0 c1rawBad).2.error_message =
        some "ValueError: 'bogus' is not a valid MessageType")
    ∧ ((MCPServer.process_message ServerState.empty 0 fid0 c1rawMR).2.success = false
       ∧ (MCPServer.process_message ServerState.empty 0 fid0 c1rawMR).2.error_message ≠ none) :=
  ⟨(c1_process_message_total ServerState.empty 0 fid0 c1rawBad).1
      "ValueError: 'bogus' is not a valid MessageType" (by decide),
   (c1_process_message_total ServerState.empty 0 fid0 c1rawMR).2
      ⟨"i", .memory_retrieve, "a", .chatbot, none, 0, [], none, none⟩
      (by decide) rfl (by decide) (by decide)⟩

theorem find?_filter_id_ne (l : List ContextData) (cid : String) :
    (l.filter (fun c => c.context_id ≠ cid)).find?
      (fun c => c.context_id == cid) = none := by
  rw [List.find?_eq_none]
  intro c hc
  rw [List.mem_filter] at hc
  simpa using hc.2

theorem retrieve_hit (s : ServerState) (now : Int) (cid : String)
    (ctx : ContextData) (hget : alGet s.active_contexts cid = some ctx)
    (hlive : ctx.is_expired now = false) :
    ContextManager.retrieve_context s now cid = (s, some ctx) := by
  unfold ContextManager.retrieve_context
  rw [hget]
  simp [hlive]

theorem retrieve_expired (s : ServerState) (now : Int) (cid : String)
    (ctx : ContextData) (hget : alGet s.active_contexts cid = some ctx)
    (hdead : ctx.is_expired now = true) :
    ContextManager.retrieve_context s now cid =
      ContextManager.retrieve_context_fallback
        ⟨(s.store.delete_context cid).1, alErase s.active_contexts cid,
         s.registered_agents, s.active_conversations⟩ now cid := by
  unfold ContextManager.retrieve_context
  rw [hget]
  simp [hdead, Store.delete_context]

theorem fallback_miss (s : ServerState) (now : Int) (cid : String)
    (hfind : s.store.contexts.find? (fun c => c.context_id == cid) = none) :
    ContextManager.retrieve_context_fallback s now cid = (s, none) := by
  unfold ContextManager.retrieve_context_fallback Store.retrieve_context
  rw [hfind]

/-- C3: a context stored with `expires_in_minutes = N` (N positive) is
returned unchanged — with no state change — by `retrieve_context` before
the expiry instant `created_at + N`; once the clock passes that instant,
`retrieve_context` returns `none`, evicts the context from the cache and
deletes its row from the store, so an expired context is never returned
by retrieval. -/
theorem c3_expiry (s : ServerState) (t0 now1 now2 N : Int) (cid : String)
    (cty cdata cmeta : JVal) (s1 : ServerState) (ctx : ContextData)
    (hN : 0 < N)
    (hstore : ContextManager.store_context s t0 cid cty cdata cmeta
      (some (.int N)) = .ok (s1, ctx))
    (h1 : now1 < t0 + N) (h2 : t0 + N < now2) :
    ContextManager.retrieve_context s1 now1 cid = (s1, some ctx)
    ∧ (ContextManager.retrieve_context s1 now2 cid).2 = none
    ∧ (∀ c ∈ (ContextManager.retrieve_context s1 now2 cid).1.store.contexts,
        c.context_id ≠ cid)
    ∧ alGet (ContextManager.retrieve_context s1 now2 cid).1.active_contexts
        cid = none := by
  have hint : N ≠ 0 := by omega
  have hexp : expiresAtOf (some (.int N)) t0 = .ok (some (t0 + N)) := by
    simp [expiresAtOf, jTruthy, hint]
  rw [ContextManager.store_context, hexp] at hstore
  injection hstore with h
  have hs1 := congrArg Prod.fst h
  have hctxe := congrArg Prod.snd h
  simp only at hs1 hctxe
  have hac : s1.active_contexts = alInsert s.active_contexts cid ctx := by
    rw [← hs1, ← hctxe]
  have hget : alGet s1.active_contexts cid = some ctx := by
    rw [hac]
    exact alGet_alInsert_self _ _ _
  have hexpat : ctx.expires_at = some (t0 + N) := by rw [← hctxe]
  have hlive : ctx.is_expired now1 = false := by
    simp [ContextData.is_expired, hexpat]
    omega
  have hdead : ctx.is_expired now2 = true := by
    simp [ContextData.is_expired, hexpat]
    omega
  have e1 := retrieve_expired s1 now2 cid ctx hget hdead
  have hdel : ((s1.store.delete_context cid)).1.contexts =
      s1.store.contexts.filter (fun c => c.context_id ≠ cid) := by
    simp [Store.delete_context]
  have hfind : ((s1.store.delete_context cid)).1.contexts.find?
      (fun c => c.context_id == cid) = none := by
    rw [hdel]
    exact find?_filter_id_ne _ _
  have e2 := fallback_miss
    ⟨(s1.store.delete_context cid).1, alErase s1.active_contexts cid,
     s1.registered_agents, s1.active_conversations⟩ now2 cid hfind
  refine ⟨retrieve_hit s1 now1 cid ctx hget hlive, ?_, ?_, ?_⟩
  · rw [e1, e2]
  · intro c hc
    rw [e1, e2] at hc
    simp only at hc
    rw [hdel] at hc
    rw [List.mem_filter] at hc
    simpa using hc.2
  · rw [e1, e2]
    exact alGet_alErase_self _ _

theorem find?_append_right_ne {α : Type} (p : α → Bool) (l : List α)
    (c : α) (hc : p c = false) : (l ++ [c]).find? p = l.find? p := by
  induction l with
  | nil => simp [List.find?, hc]
  | cons x xs ih =>
      by_cases hx : p x
      · simp [List.find?, hx]
      · simp only [List.cons_append]
        rw [List.find?_cons_of_neg _ (by simpa using hx),
          List.find?_cons_of_neg _ (by simpa using hx), ih]

theorem find?_filter_sub {α : Type} (p q : α → Bool) (l : List α)
    (h : ∀ a, p a = true → q a = true) :
    (l.filter q).find? p = l.find? p := by
  induction l with
  | nil => rfl
  | cons x xs ih =>
      by_cases hq : q x = true
      · rw [List.filter_cons_of_pos hq]
        by_cases hp : p x = true
        · rw [List.find?_cons_of_pos _ hp, List.find?_cons_of_pos _ hp]
        · rw [List.find?_cons_of_neg _ (by simpa using hp),
            List.find?_cons_of_neg _ (by simpa using hp), ih]
      · rw [List.filter_cons_of_neg (by simpa using hq)]
        have hp : p x = false := by
          by_cases hpx : p x = true
          · exact absurd (h x hpx) hq
          · simpa using hpx
        rw [List.find?_cons_of_neg _ (by simp [hp]), ih]

theorem get_conversation_upsert_ne (st : Store) (c : Conversation)
    (k : String) (h : c.conversation_id ≠ k) :
    (st.store_conversation c).1.get_conversation k = st.get_conversation k := by
  unfold Store.store_conversation Store.get_conversation
  simp only
  rw [find?_append_right_ne _ _ _ (by simp [h])]
  rw [find?_filter_sub]
  intro a ha
  simp only [beq_iff_eq] at ha
  simp only [ha, decide_eq_true_eq]
  exact Ne.symm h

theorem get_conversation_store_message (st : Store) (m : MCPMessage)
    (k : String) :
    (st.store_message m).1.get_conversation k = st.get_conversation k := by
  unfold Store.store_message
  by_cases h : st.messages.any (fun m' => m'.id == m.id)
  · simp [h, Store.get_conversation]
  · simp [h, Store.get_conversation]

theorem add_participant_arr (c : Conversation) (now : Int) (aid : String)
    (xs : List JVal) (h : c.participants = .arr xs) :
    ∃ c' b xs', c.add_participant now aid = .ok (c', b)
      ∧ c'.participants = .arr xs'
      ∧ c'.conversation_id = c.conversation_id
      ∧ (∀ v ∈ xs, v ∈ xs') ∧ (JVal.str aid) ∈ xs' := by
  unfold Conversation.add_participant
  rw [h]
  by_cases hm : (JVal.str aid) ∈ xs
  · refine ⟨c, false, xs, ?_, h, rfl, fun v hv => hv, hm⟩
    simp [jContainsE, List.contains, List.elem_iff, hm]
  · refine ⟨{ c with participants := JVal.arr (xs ++ [JVal.str aid]), updated_at := now },
      true, xs ++ [.str aid], ?_, rfl, rfl,
      fun v hv => List.mem_append_left _ hv,
      List.mem_append_right _ (List.mem_singleton_self _)⟩
    simp [jContainsE, List.contains, List.elem_iff, hm]

/-- What one `add_message_to_conversation` call does when the message's
conversation id resolves to no existing conversation: it succeeds, the
auto-created conversation is cached and persisted under the FRESH uuid
(not under the message's conversation id) with the sender among its
participants, and every other key of the conversation cache and store is
untouched. -/
theorem add_message_auto (s : ServerState) (now : Int) (fresh cid : String)
    (msg : MCPMessage)
    (hcid : msg.conversation_id = some cid) (hne : cid ≠ "")
    (hmiss1 : alGet s.active_conversations cid = none)
    (hmiss2 : s.store.get_conversation cid = none) :
    (ConversationManager.add_message_to_conversation s now fresh msg).2 = .ok true
    ∧ (∃ c xs,
        alGet (ConversationManager.add_message_to_conversation s now
          fresh msg).1.active_conversations fresh = some c
        ∧ c.conversation_id = fresh ∧ c.participants = .arr xs
        ∧ (JVal.str msg.sender_id) ∈ xs)
    ∧ (∀ k, k ≠ fresh →
        alGet (ConversationManager.add_message_to_conversation s now
          fresh msg).1.active_conversations k = alGet s.active_conversations k)
    ∧ (∀ k, k ≠ fresh →
        (ConversationManager.add_message_to_conversation s now
          fresh msg).1.store.get_conversation k = s.store.get_conversation k) := by
  have hget : ConversationManager.get_conversation s cid = (s, none) := by
    simp [ConversationManager.get_conversation, hmiss1, hmiss2]
  obtain ⟨c1, b1, xs1, hap1, hp1, hid1, hsub1, hmem1⟩ :=
    add_participant_arr
      ⟨fresh, .str ("Conversation with " ++ msg.sender_id),
       .arr [.str msg.sender_id], now, now, "active",
       .obj [("auto_created", .bool true)]⟩
      now msg.sender_id [.str msg.sender_id] rfl
  have hcid1 : c1.conversation_id = fresh := by simpa using hid1
  cases hrec : strTruthyO msg.recipient_id with
  | false =>
      refine ⟨?_, ?_, ?_, ?_⟩
      · simp [ConversationManager.add_message_to_conversation, hcid,
          hne, hget, ConversationManager.create_conversation, jCopyE,
          jTruthy, ConversationManager.add_message_finish, hap1, hrec]
      · simp [ConversationManager.add_message_to_conversation, hcid,
          hne, hget, ConversationManager.create_conversation, jCopyE,
          jTruthy, ConversationManager.add_message_finish, hap1, hrec,
          alGet_alInsert_self]
        exact ⟨hcid1, xs1, hp1, hmem1⟩
      · intro k hk
        simp [ConversationManager.add_message_to_conversation, hcid,
          hne, hget, ConversationManager.create_conversation, jCopyE,
          jTruthy, ConversationManager.add_message_finish, hap1, hrec]
        rw [alGet_alInsert_ne _ (fun hh => hk hh.symm),
          alGet_alInsert_ne _ (fun hh => hk hh.symm)]
      · intro k hk
        simp [ConversationManager.add_message_to_conversation, hcid,
          hne, hget, ConversationManager.create_conversation, jCopyE,
          jTruthy, ConversationManager.add_message_finish, hap1, hrec]
        rw [get_conversation_upsert_ne _ _ _
            (by simp [hcid1]; exact fun hh => hk hh.symm),
          get_conversation_store_message,
          get_conversation_upsert_ne _ _ _ (fun hh => hk hh.symm)]
  | true =>
      obtain ⟨c2, b2, xs2, hap2, hp2, hid2, hsub2, hmem2⟩ :=
        add_participant_arr c1 now (msg.recipient_id.getD "") xs1 hp1
      have hcid2 : c2.conversation_id = fresh := by rw [hid2, hcid1]
      refine ⟨?_, ?_, ?_, ?_⟩
      · simp [ConversationManager.add_message_to_conversation, hcid,
          hne, hget, ConversationManager.create_conversation, jCopyE,
          jTruthy, ConversationManager.add_message_finish, hap1, hap2, hrec]
      · simp [ConversationManager.add_message_to_conversation, hcid,
          hne, hget, ConversationManager.create_conversation, jCopyE,
          jTruthy, ConversationManager.add_message_finish, hap1, hap2, hrec,
          alGet_alInsert_self]
        exact ⟨hcid2, xs2, hp2, hsub2 _ hmem1⟩
      · intro k hk
        simp [ConversationManager.add_message_to_conversation, hcid,
          hne, hget, ConversationManager.create_conversation, jCopyE,
          jTruthy, ConversationManager.add_message_finish, hap1, hap2, hrec]
        rw [alGet_alInsert_ne _ (fun hh => hk hh.symm),
          alGet_alInsert_ne _ (fun hh => hk hh.symm)]
      · intro k hk
        simp [ConversationManager.add_message_to_conversation, hcid,
          hne, hget, ConversationManager.create_conversation, jCopyE,
          jTruthy, ConversationManager.add_message_finish, hap1, hap2, hrec]
        rw [get_conversation_upsert_ne _ _ _
            (by simp [hcid2]; exact fun hh => hk hh.symm),
          get_conversation_store_message,
          get_conversation_upsert_ne _ _ _ (fun hh => hk hh.symm)]

/-- The context produced by storing with `expires_in_minutes = 5` at
time 0. -/
def c3ctx : ContextData := ⟨"c", .str "general", .obj [], .obj [], some 5, 0⟩

/-- The server state right after that store. -/
def c3s1 : ServerState := ⟨⟨[c3ctx], [], [], []⟩, [("c", c3ctx)], [], []⟩

theorem c3_witness :
    ContextManager.retrieve_context c3s1 4 "c" = (c3s1, some c3ctx)
    ∧ (ContextManager.retrieve_context c3s1 6 "c").2 = none
    ∧ (∀ c ∈ (ContextManager.retrieve_context c3s1 6 "c").1.store.contexts,
        c.context_id ≠ "c")
    ∧ alGet (ContextManager.retrieve_context c3s1 6 "c").1.active_contexts
        "c" = none :=
  c3_expiry ServerState.empty 0 4 6 5 "c" (.str "general") (.obj [])
    (.obj []) c3s1 c3ctx (by decide) (by decide) (by decide) (by decide)

/-- Store one context of type "general" through the manager at time 0,
ignoring the (unreachable) error branch. -/
def c6store (s : ServerState) (cid : String) (expMin : Option JVal) :
    ServerState :=
  match ContextManager.store_context s 0 cid (.str "general") (.obj [])
      (.obj []) expMin with
  | .ok (s', _) => s'
  | .error _ => s

/-- Five contexts stored through `store_context` (each therefore sits in
both the cache and the store); "c1" and "c2" expire at time 5. -/
def c6state : ServerState :=
  c6store (c6store (c6store (c6store (c6store ServerState.empty "c1"
    (some (.int 5))) "c2" (some (.int 5))) "c3" none) "c4" none) "c5" none

/-- C6 counterexample: in the claim's scenario — 5 stored contexts of
which exactly 2 are expired — `cleanup_expired_contexts` returns 4, not
2: each expired context is counted once as an in-memory cache eviction
and once more in the store's bulk-delete row count. -/
theorem c6_counterexample :
    c6state.store.contexts.length = 5
    ∧ (c6state.store.contexts.filter (fun c => c.is_expired 10)).length = 2
    ∧ (ContextManager.cleanup_expired_contexts c6state 10).2 = 4 := by
  decide

/-- A `conversation_message` from sender "alice" carrying conversation id
"c1". -/
def c2msg : MCPMessage :=
  ⟨"m1", .conversation_message, "alice", .chatbot, none, 0, [],
   some "c1", none⟩

/-- C2 counterexample: starting from an empty server, a first
`conversation_message` carrying the novel conversation id "c1" leaves one
conversation in the store, and a second message carrying the SAME
conversation id leaves two — the code auto-creates a second conversation
because the first one was keyed by its fresh uuid ("u1"), not by "c1".
This refutes the claim's "a second message carrying the same conversation
id does not create a second conversation". -/
theorem c2_counterexample :
    (ConversationManager.add_message_to_conversation ServerState.empty 0 "u1"
      c2msg).1.store.conversations.length = 1
    ∧ (ConversationManager.add_message_to_conversation
        (ConversationManager.add_message_to_conversation ServerState.empty 0
          "u1" c2msg).1 0 "u2" c2msg).1.store.conversations.length = 2 := by
  decide

/-- C2 (amended): for every `conversation_message` carrying a
conversation id for which no conversation exists,
`add_message_to_conversation` creates a new conversation whose
participant list contains the message's sender — but the conversation is
created under a freshly generated uuid, so it is not reachable under the
message's conversation id, and a second message carrying the same
conversation id therefore creates a second conversation (under its own
fresh uuid) instead of reusing the first. -/
theorem c2_auto_creation (s : ServerState) (now now2 : Int)
    (fresh fresh2 cid : String) (msg msg2 : MCPMessage)
    (hcid : msg.conversation_id = some cid)
    (hcid2 : msg2.conversation_id = some cid)
    (hne : cid ≠ "")
    (hmiss1 : alGet s.active_conversations cid = none)
    (hmiss2 : s.store.get_conversation cid = none)
    (hf1 : fresh ≠ cid) (hff : fresh2 ≠ fresh) :
    (ConversationManager.add_message_to_conversation s now fresh msg).2 = .ok true
    ∧ (∃ c xs,
        alGet (ConversationManager.add_message_to_conversation s now
          fresh msg).1.active_conversations fresh = some c
        ∧ c.conversation_id = fresh ∧ c.participants = .arr xs
        ∧ (JVal.str msg.sender_id) ∈ xs)
    ∧ alGet (ConversationManager.add_message_to_conversation s now
        fresh msg).1.active_conversations cid = none
    ∧ (ConversationManager.add_message_to_conversation
        (ConversationManager.add_message_to_conversation s now fresh msg).1
        now2 fresh2 msg2).2 = .ok true
    ∧ (∃ c xs,
        alGet (ConversationManager.add_message_to_conversation
          (ConversationManager.add_message_to_conversation s now fresh msg).1
          now2 fresh2 msg2).1.active_conversations fresh2 = some c
        ∧ c.conversation_id = fresh2 ∧ c.participants = .arr xs
        ∧ (JVal.str msg2.sender_id) ∈ xs)
    ∧ (∃ c,
        alGet (ConversationManager.add_message_to_conversation
          (ConversationManager.add_message_to_conversation s now fresh msg).1
          now2 fresh2 msg2).1.active_conversations fresh = some c
        ∧ c.conversation_id = fresh) := by
  obtain ⟨ha1, ⟨c, xs, hcget, hcidc, hcp, hcm⟩, hframeC, hframeS⟩ :=
    add_message_auto s now fresh cid msg hcid hne hmiss1 hmiss2
  have hm1' : alGet (ConversationManager.add_message_to_conversation s now
      fresh msg).1.active_conversations cid = none := by
    rw [hframeC cid (Ne.symm hf1)]
    exact hmiss1
  have hm2' : (ConversationManager.add_message_to_conversation s now
      fresh msg).1.store.get_conversation cid = none := by
    rw [hframeS cid (Ne.symm hf1)]
    exact hmiss2
  obtain ⟨ha2, ⟨c2, xs2, hc2get, hc2id, hc2p, hc2m⟩, hframeC2, hframeS2⟩ :=
    add_message_auto (ConversationManager.add_message_to_conversation s now
      fresh msg).1 now2 fresh2 cid msg2 hcid2 hne hm1' hm2'
  refine ⟨ha1, ⟨c, xs, hcget, hcidc, hcp, hcm⟩, hm1', ha2,
    ⟨c2, xs2, hc2get, hc2id, hc2p, hc2m⟩, ⟨c, ?_, hcidc⟩⟩
  rw [hframeC2 fresh (Ne.symm hff)]
  exact hcget

theorem c2_witness :
    (ConversationManager.add_message_to_conversation ServerState.empty 0 "u1"
      c2msg).2 = .ok true
    ∧ (∃ c xs,
        alGet (ConversationManager.add_message_to_conversation
          ServerState.empty 0 "u1" c2msg).1.active_conversations "u1" = some c
        ∧ c.conversation_id = "u1" ∧ c.participants = .arr xs
        ∧ (JVal.str c2msg.sender_id) ∈ xs)
    ∧ alGet (ConversationManager.add_message_to_conversation
        ServerState.empty 0 "u1" c2msg).1.active_conversations "c1" = none
    ∧ (ConversationManager.add_message_to_conversation
        (ConversationManager.add_message_to_conversation ServerState.empty 0
          "u1" c2msg).1 0 "u2" c2msg).2 = .ok true
    ∧ (∃ c xs,
        alGet (ConversationManager.add_message_to_conversation
          (ConversationManager.add_message_to_conversation ServerState.empty 0
            "u1" c2msg).1 0 "u2" c2msg).1.active_conversations "u2" = some c
        ∧ c.conversation_id = "u2" ∧ c.participants = .arr xs
        ∧ (JVal.str c2msg.sender_id) ∈ xs)
    ∧ (∃ c,
        alGet (ConversationManager.add_message_to_conversation
          (ConversationManager.add_message_to_conversation ServerState.empty 0
            "u1" c2msg).1 0 "u2" c2msg).1.active_conversations "u1" = some c
        ∧ c.conversation_id = "u1") :=
  c2_auto_creation ServerState.empty 0 0 "u1" "u2" "c1" c2msg c2msg
    rfl rfl (by decide) rfl rfl (by decide) (by decide)

/-- C6 (amended): `cleanup_expired_contexts` returns the number of
expired entries evicted from the in-memory cache PLUS the number of
expired rows bulk-deleted from the store; when the expired contexts sit
in both — as they do after being stored through `store_context` — each is
counted twice, so the 5-context scenario with 2 expired returns 4.  A
subsequent `retrieve_contexts_by_type` call never returns an expired
context. -/
theorem c6_cleanup :
    ((ContextManager.cleanup_expired_contexts c6state 10).2 = 4)
    ∧ (∀ (s : ServerState) (now : Int),
        (ContextManager.cleanup_expired_contexts s now).2 =
          (s.active_contexts.filter (fun kv => kv.2.is_expired now)).length
          + (s.store.contexts.filter (fun c => c.is_expired now)).length)
    ∧ (∀ (s : ServerState) (now : Int) (ty : JVal) (c : ContextData),
        c ∈ (ContextManager.retrieve_contexts_by_type s now ty).2 →
          c.is_expired now = false) := by
  refine ⟨by decide, ?_, ?_⟩
  · intro s now
    rfl
  · intro s now ty c hc
    simp only [ContextManager.retrieve_contexts_by_type,
      Store.retrieve_contexts_by_type] at hc
    rw [mem_sortByDesc] at hc
    rcases List.mem_append.mp hc with h | h
    · have h2 := (List.mem_filter.mp h).2
      simp only [Bool.and_eq_true, Bool.not_eq_true'] at h2
      exact h2.2
    · have h2 := (List.mem_filter.mp h).1
      have h3 := (List.mem_filter.mp h2).2
      simpa using h3

theorem c6_witness :
    (ContextManager.cleanup_expired_contexts c6state 10).2 =
      (c6state.active_contexts.filter (fun kv => kv.2.is_expired 10)).length
      + (c6state.store.contexts.filter (fun c => c.is_expired 10)).length
    ∧ (⟨"c5", .str "general", .obj [], .obj [], none, 0⟩ : ContextData).is_expired
        10 = false :=
  ⟨c6_cleanup.2.1 c6state 10,
   c6_cleanup.2.2 c6state 10 (.str "general")
     ⟨"c5", .str "general", .obj [], .obj [], none, 0⟩ (by decide)⟩

/-- A `memory_store` message with an `expires_in_minutes` field. -/
def c7mem : MCPMessage :=
  ⟨"id1", .memory_store, "alice", .chatbot, none, 0,
   [("memory_type", .str "m"), ("data", .obj [("k", .str "v")]),
    ("expires_in_minutes", .int 5)], none, none⟩

/-- The corresponding `context_share` message (same data, same expiry
request, type under `context_type`). -/
def c7cs : MCPMessage :=
  ⟨"id1", .context_share, "alice", .chatbot, none, 0,
   [("context_type", .str "m"), ("data", .obj [("k", .str "v")]),
    ("expires_in_minutes", .int 5)], none, none⟩

/-- C7 counterexample: for a payload carrying `expires_in_minutes = 5`,
the memory-store handler stores a context with no expiry while the
corresponding context-share handler stores one expiring at
`now + 5` — the two handlers do NOT produce the same stored context, so
the claimed equivalence of their expiry handling fails. -/
theorem c7_counterexample :
    ((MCPServer.handleMemoryStore ServerState.empty 0 fid0
      c7mem).1.store.contexts.map (fun c => c.expires_at)) = [none]
    ∧ ((MCPServer.handleContextShare ServerState.empty 0 fid0
      c7cs).1.store.contexts.map (fun c => c.expires_at)) = [some 5] := by
  decide

/-- C7 (amended): the memory-store handler behaves identically to the
context-share handler with the context type taken from the payload's
`memory_type` field — but only on payloads whose `expires_in_minutes` is
absent or untruthy and whose envelope has no truthy recipient, because
memory-store ignores `expires_in_minutes` (its contexts never expire) and
never shares with a recipient; the success responses also differ in their
`response_data` message text. -/
theorem c7_memory_store_refines (s : ServerState) (now : Int)
    (f : FreshIds) (mMem mCS : MCPMessage)
    (hty : dget mCS.payload "context_type" = dget mMem.payload "memory_type")
    (hdata : dget mCS.payload "data" = dget mMem.payload "data")
    (hmeta : dget mCS.payload "metadata" = dget mMem.payload "metadata")
    (hexp : jTruthyO (dget mCS.payload "expires_in_minutes") = false)
    (hrec : strTruthyO mCS.recipient_id = false)
    (hsid : mCS.sender_id = mMem.sender_id)
    (hid : mCS.id = mMem.id) :
    (MCPServer.handleMemoryStore s now f mMem).1 =
      (MCPServer.handleContextShare s now f mCS).1
    ∧ (MCPServer.handleMemoryStore s now f mMem).2 =
      { (MCPServer.handleContextShare s now f mCS).2 with response_data :=
          [("context_id", .str f.ctxId),
           ("message", .str "Memory stored successfully")] } := by
  have hexpat : expiresAtOf (dget mCS.payload "expires_in_minutes") now =
      .ok none := by
    cases hv : dget mCS.payload "expires_in_minutes" with
    | none => rfl
    | some w =>
        rw [hv] at hexp
        simp only [jTruthyO] at hexp
        simp [expiresAtOf, hexp]
  have hnone : expiresAtOf (none : Option JVal) now = .ok none := rfl
  refine ⟨?_, ?_⟩ <;>
    simp [MCPServer.handleMemoryStore, MCPServer.handleContextShare,
      ContextManager.store_context, hnone, hexpat, hrec, hty, hdata,
      hmeta, hsid, hid, MCPServer.okResp]

/-- A `memory_store` message with no expiry and no recipient. -/
def c7memW : MCPMessage :=
  ⟨"id1", .memory_store, "alice", .chatbot, none, 0,
   [("memory_type", .str "m")], none, none⟩

/-- The corresponding `context_share` message. -/
def c7csW : MCPMessage :=
  ⟨"id1", .context_share, "alice", .chatbot, none, 0,
   [("context_type", .str "m")], none, none⟩

theorem c7_witness :
    (MCPServer.handleMemoryStore ServerState.empty 0 fid0 c7memW).1 =
      (MCPServer.handleContextShare ServerState.empty 0 fid0 c7csW).1
    ∧ (MCPServer.handleMemoryStore ServerState.empty 0 fid0 c7memW).2 =
      { (MCPServer.handleContextShare ServerState.empty 0 fid0 c7csW).2 with
        response_data := [("context_id", .str fid0.ctxId),
          ("message", .str "Memory stored successfully")] } :=
  c7_memory_store_refines ServerState.empty 0 fid0 c7memW c7csW
    (by decide) (by decide) (by decide) (by decide) (by decide) rfl rfl

/-- The agent record as it looks after `update_agent_status` mutates it:
new status, refreshed `last_seen`, merged metadata. -/
def agentRefresh (agent : AgentInfo) (status : JVal) (now : Int)
    (md : JVal) : AgentInfo :=
  { agent with status := status, last_seen := now, metadata := md }

/-- C8: `update_agent_status` on an agent id absent from the in-memory
registered-agents cache returns false and changes nothing — whatever the
backing store contains; on a cached agent it sets the status, refreshes
`last_seen` to the current time, merges the metadata mapping into the
agent's, persists through the store and returns the store's success
flag. -/
theorem c8_update_agent_status :
    (∀ (s : ServerState) (now : Int) (aid : String) (status meta : JVal),
      alGet s.registered_agents aid = none →
      ContextManager.update_agent_status s now aid status meta =
        (s, .ok false))
    ∧ (∀ (s : ServerState) (now : Int) (aid : String) (status : JVal)
        (agent : AgentInfo) (akvs mkvs : List (String × JVal)),
        alGet s.registered_agents aid = some agent →
        agent.metadata = .obj akvs →
        ContextManager.update_agent_status s now aid status (.obj mkvs) =
          (⟨(s.store.store_agent
              (agentRefresh agent status now (.obj (dictUpdate akvs mkvs)))).1,
            s.active_contexts,
            alInsert s.registered_agents aid
              (agentRefresh agent status now (.obj (dictUpdate akvs mkvs))),
            s.active_conversations⟩,
           .ok ((s.store.store_agent
              (agentRefresh agent status now
                (.obj (dictUpdate akvs mkvs)))).2))) := by
  constructor
  · intro s now aid status meta h
    simp [ContextManager.update_agent_status, h]
  · intro s now aid status agent akvs mkvs h hmeta
    obtain ⟨a1, a2, a3, a4, a5, a6, a7⟩ := agent
    simp only at hmeta
    subst hmeta
    cases mkvs with
    | nil =>
        simp [ContextManager.update_agent_status, h, jTruthy, dictUpdate,
          agentRefresh]
    | cons kv rest =>
        simp [ContextManager.update_agent_status, h, jTruthy, dictUpdate,
          agentRefresh]

/-- The registered agent used in the C8 scenario. -/
def c8agent : AgentInfo :=
  ⟨"bob", .chatbot, .str "Bob", .arr [], .str "active", 0, .obj []⟩

/-- An agent that exists only in the backing store, not in the cache. -/
def c8ghost : AgentInfo :=
  ⟨"ghost", .chatbot, .str "G", .arr [], .str "active", 0, .obj []⟩

/-- A state whose store knows both agents but whose cache knows only
"bob". -/
def c8state : ServerState :=
  ⟨⟨[], [], [], [c8ghost, c8agent]⟩, [], [("bob", c8agent)], []⟩

theorem c8_witness :
    ContextManager.update_agent_status c8state 1 "ghost" (.str "busy")
      (.obj []) = (c8state, .ok false)
    ∧ ContextManager.update_agent_status c8state 1 "bob" (.str "busy")
        (.obj [("x", .int 1)]) =
      (⟨(c8state.store.store_agent
          (agentRefresh c8agent (.str "busy") 1
            (.obj (dictUpdate [] [("x", .int 1)])))).1,
        c8state.active_contexts,
        alInsert c8state.registered_agents "bob"
          (agentRefresh c8agent (.str "busy") 1
            (.obj (dictUpdate [] [("x", .int 1)]))),
        c8state.active_conversations⟩,
       .ok ((c8state.store.store_agent
          (agentRefresh c8agent (.str "busy") 1
            (.obj (dictUpdate [] [("x", .int 1)])))).2)) :=
  ⟨c8_update_agent_status.1 c8state 1 "ghost" (.str "busy") (.obj []) rfl,
   c8_update_agent_status.2 c8state 1 "bob" (.str "busy") c8agent []
     [("x", .int 1)] rfl rfl⟩

theorem ContextManager.get_agent_cache {s s' : ServerState} {aid : String}
    {a : AgentInfo} (h : ContextManager.get_agent s aid = (s', some a)) :
    alGet s'.registered_agents aid = some a := by
  unfold ContextManager.get_agent at h
  cases hc : alGet s.registered_agents aid with
  | some x =>
      rw [hc] at h
      cases h
      exact hc
  | none =>
      rw [hc] at h
      cases hs : s.store.get_agent aid with
      | some x =>
          rw [hs] at h
          cases h
          simp [alGet_alInsert_self]
      | none => rw [hs] at h; cases h

theorem find?_append_left_none {α : Type} (p : α → Bool) (l1 l2 : List α)
    (h : l1.find? p = none) : (l1 ++ l2).find? p = l2.find? p := by
  induction l1 with
  | nil => rfl
  | cons x xs ih =>
      rw [List.find?_cons] at h
      by_cases hx : p x
      · simp [hx] at h
      · simp only [List.cons_append]
        rw [List.find?_cons_of_neg _ (by simpa using hx)]
        exact ih (by simpa [hx] using h)

/-- The metadata-only update a successful share performs on the resolved
context. -/
def sharedCtx (ctx : ContextData) (kvs : Dict) (xs : List JVal)
    (aid : String) (now : Int) : ContextData :=
  { ctx with metadata := JVal.obj (dset (dset
      (ContextManager.sharedWithInit kvs) "shared_with"
      (.arr (xs ++ [.str aid]))) "last_shared" (.time now)) }

/-- The server state a successful share leaves behind: the updated
context written back to the cache and upserted into the store. -/
def sharedState (s2 : ServerState) (cid : String) (ctx' : ContextData) :
    ServerState :=
  ⟨(s2.store.store_context ctx').1, alInsert s2.active_contexts cid ctx',
   s2.registered_agents, s2.active_conversations⟩

/-- A context that is already expired at time 10. -/
def c4expCtx : ContextData := ⟨"c", .str "general", .obj [], .obj [], some 0, 0⟩

/-- A state caching and storing only that expired context. -/
def c4expState : ServerState :=
  ⟨⟨[c4expCtx], [], [], []⟩, [("c", c4expCtx)], [], []⟩

/-- C4 counterexample: when the context cannot be resolved because it has
expired, `share_context_with_agent` returns false but does NOT leave the
state unchanged — the failed lookup evicts the expired context from the
cache and deletes its store row.  This refutes the claim's "if either the
context or the agent cannot be resolved the call returns false with no
state change". -/
theorem c4_counterexample :
    (ContextManager.share_context_with_agent c4expState 10 "c" "a").2 =
      .ok false
    ∧ (ContextManager.share_context_with_agent c4expState 10 "c" "a").1 ≠
      c4expState := by
  decide

/-- C4 (amended): for a context and agent that both resolve, with the
agent not yet in the context's `shared_with` list, the first
`share_context_with_agent` call appends the agent id to the metadata
`shared_with` list, persists, and returns true; a second call with the
same arguments changes nothing, returns false, and leaves `shared_with`
containing the agent exactly once.  If the context does not resolve, or
the agent does not resolve, the call returns false (the failed lookup may
itself have evicted an expired context — see the counterexample). -/
theorem c4_share_idempotent :
    (∀ (s : ServerState) (now now2 : Int) (cid aid : String)
       (s1 s2 : ServerState) (ctx : ContextData) (ag : AgentInfo)
       (kvs : Dict) (xs : List JVal),
       ContextManager.retrieve_context s now cid = (s1, some ctx) →
       ContextManager.get_agent s1 aid = (s2, some ag) →
       ctx.metadata = .obj kvs →
       dget (ContextManager.sharedWithInit kvs) "shared_with" =
         some (.arr xs) →
       (JVal.str aid) ∉ xs →
       ctx.is_expired now2 = false →
       (ContextManager.share_context_with_agent s now cid aid =
         (sharedState s2 cid (sharedCtx ctx kvs xs aid now), .ok true)
        ∧ (xs ++ [JVal.str aid]).count (JVal.str aid) = 1
        ∧ ContextManager.share_context_with_agent
            (sharedState s2 cid (sharedCtx ctx kvs xs aid now)) now2 cid aid =
          (sharedState s2 cid (sharedCtx ctx kvs xs aid now), .ok false)))
    ∧ (∀ (s : ServerState) (now : Int) (cid aid : String),
        (ContextManager.retrieve_context s now cid).2 = none →
        (ContextManager.share_context_with_agent s now cid aid).2 = .ok false)
    ∧ (∀ (s : ServerState) (now : Int) (cid aid : String)
        (s1 : ServerState) (ctx : ContextData),
        ContextManager.retrieve_context s now cid = (s1, some ctx) →
        (ContextManager.get_agent s1 aid).2 = none →
        (ContextManager.share_context_with_agent s now cid aid).2 = .ok false) := by
  refine ⟨?_, ?_, ?_⟩
  · intro s now now2 cid aid s1 s2 ctx ag kvs xs hr ha hm hsw hmem hexp2
    have hfirst : ContextManager.share_context_with_agent s now cid aid =
        (sharedState s2 cid (sharedCtx ctx kvs xs aid now), .ok true) := by
      simp [ContextManager.share_context_with_agent, hr, ha, hm, hsw,
        jContainsE, hmem, sharedState, sharedCtx]
    refine ⟨hfirst, ?_, ?_⟩
    · rw [List.count_append]
      rw [List.count_eq_zero_of_not_mem hmem]
      simp
    · have hget2 : alGet (sharedState s2 cid
          (sharedCtx ctx kvs xs aid now)).active_contexts cid =
          some (sharedCtx ctx kvs xs aid now) := by
        simp [sharedState, alGet_alInsert_self]
      have hlive2 : (sharedCtx ctx kvs xs aid now).is_expired now2 = false := by
        simpa [sharedCtx, ContextData.is_expired] using hexp2
      have hrt := retrieve_hit _ now2 cid _ hget2 hlive2
      have hag : alGet s2.registered_agents aid = some ag :=
        ContextManager.get_agent_cache ha
      have hga : ContextManager.get_agent (sharedState s2 cid
          (sharedCtx ctx kvs xs aid now)) aid =
          (sharedState s2 cid (sharedCtx ctx kvs xs aid now), some ag) := by
        simp [ContextManager.get_agent, sharedState, hag]
      have h1g : ∀ (d : Dict), dget (dset (dset d "shared_with"
          (JVal.arr (xs ++ [JVal.str aid]))) "last_shared" (JVal.time now))
          "shared_with" = some (JVal.arr (xs ++ [JVal.str aid])) := fun d => by
        rw [dget_dset_ne _ (by decide) _, dget_dset_self]
      have h1 := h1g (ContextManager.sharedWithInit kvs)
      have h2 : ContextManager.sharedWithInit (dset (dset
          (ContextManager.sharedWithInit kvs) "shared_with"
          (.arr (xs ++ [.str aid]))) "last_shared" (.time now)) =
          dset (dset (ContextManager.sharedWithInit kvs) "shared_with"
            (.arr (xs ++ [.str aid]))) "last_shared" (.time now) := by
        simp [ContextManager.sharedWithInit, h1g]
      have hmem2 : (JVal.str aid) ∈ xs ++ [JVal.str aid] :=
        List.mem_append_right _ (List.mem_singleton_self _)
      simp only [ContextManager.share_context_with_agent, hrt, hga]
      simp [sharedCtx, h1, h2, jContainsE, hmem2]
  · intro s now cid aid h
    rcases hr : ContextManager.retrieve_context s now cid with ⟨s1, ctxOpt⟩
    rw [hr] at h
    simp only at h
    subst h
    simp [ContextManager.share_context_with_agent, hr]
  · intro s now cid aid s1 ctx hr ha
    rcases hg : ContextManager.get_agent s1 aid with ⟨s2, agOpt⟩
    rw [hg] at ha
    simp only at ha
    subst ha
    simp [ContextManager.share_context_with_agent, hr, hg]

/-- A live context with empty metadata. -/
def c4ctx0 : ContextData := ⟨"c", .str "general", .obj [], .obj [], none, 0⟩

/-- A registered agent "a". -/
def c4agent : AgentInfo :=
  ⟨"a", .chatbot, .str "A", .arr [], .str "active", 0, .obj []⟩

/-- A state caching and storing the context and the agent. -/
def c4s0 : ServerState :=
  ⟨⟨[c4ctx0], [], [], [c4agent]⟩, [("c", c4ctx0)], [("a", c4agent)], []⟩

theorem c4_witness :
    (ContextManager.share_context_with_agent c4s0 1 "c" "a" =
      (sharedState c4s0 "c" (sharedCtx c4ctx0 [] [] "a" 1), .ok true)
     ∧ (([] : List JVal) ++ [JVal.str "a"]).count (JVal.str "a") = 1
     ∧ ContextManager.share_context_with_agent
         (sharedState c4s0 "c" (sharedCtx c4ctx0 [] [] "a" 1)) 2 "c" "a" =
       (sharedState c4s0 "c" (sharedCtx c4ctx0 [] [] "a" 1), .ok false))
    ∧ (ContextManager.share_context_with_agent c4s0 1 "zzz" "a").2 = .ok false
    ∧ (ContextManager.share_context_with_agent c4s0 1 "c" "ghost").2 =
      .ok false :=
  ⟨c4_share_idempotent.1 c4s0 1 2 "c" "a" c4s0 c4s0 c4ctx0 c4agent [] []
     (by decide) (by decide) rfl (by decide) (by decide) (by decide),
   c4_share_idempotent.2.1 c4s0 1 "zzz" "a" (by decide),
   c4_share_idempotent.2.2 c4s0 1 "c" "ghost" c4s0 c4ctx0 (by decide)
     (by decide)⟩

/-- C9: a successful `share_context_with_agent` call mutates only the
resolved context's metadata mapping: afterwards the context cached under
the shared id and the row persisted for it carry the same context id,
type tag, data payload, expiry and creation time as the resolved context,
with only the metadata replaced. -/
theorem c9_share_frame (s s1 : ServerState) (now : Int) (cid aid : String)
    (ctx : ContextData) (s' : ServerState)
    (hr : ContextManager.retrieve_context s now cid = (s1, some ctx))
    (hshare : ContextManager.share_context_with_agent s now cid aid =
      (s', .ok true)) :
    ∃ meta', alGet s'.active_contexts cid =
        some ⟨ctx.context_id, ctx.context_type, ctx.data, meta',
          ctx.expires_at, ctx.created_at⟩
      ∧ s'.store.contexts.find? (fun c => c.context_id == ctx.context_id) =
        some ⟨ctx.context_id, ctx.context_type, ctx.data, meta',
          ctx.expires_at, ctx.created_at⟩ := by
  rcases ha : ContextManager.get_agent s1 aid with ⟨s2, agOpt⟩
  cases agOpt with
  | none =>
      simp [ContextManager.share_context_with_agent, hr, ha] at hshare
  | some ag =>
      cases hm : ctx.metadata with
      | null =>
          simp [ContextManager.share_context_with_agent, hr, ha, hm] at hshare
      | bool b =>
          simp [ContextManager.share_context_with_agent, hr, ha, hm] at hshare
      | int n =>
          simp [ContextManager.share_context_with_agent, hr, ha, hm] at hshare
      | str st =>
          simp [ContextManager.share_context_with_agent, hr, ha, hm] at hshare
      | time t =>
          simp [ContextManager.share_context_with_agent, hr, ha, hm] at hshare
      | arr ys =>
          simp [ContextManager.share_context_with_agent, hr, ha, hm] at hshare
      | obj kvs =>
          cases hv : (dget (ContextManager.sharedWithInit kvs)
              "shared_with").getD (.arr []) with
          | null =>
              simp [ContextManager.share_context_with_agent, hr, ha, hm, hv,
                jContainsE] at hshare
          | bool b =>
              simp [ContextManager.share_context_with_agent, hr, ha, hm, hv,
                jContainsE] at hshare
          | int n =>
              simp [ContextManager.share_context_with_agent, hr, ha, hm, hv,
                jContainsE] at hshare
          | str st =>
              cases hb : strContains st aid <;>
                simp [ContextManager.share_context_with_agent, hr, ha, hm,
                  hv, hb, jContainsE] at hshare
          | time t =>
              cases hb : strContains (timeStr t) aid <;>
                simp [ContextManager.share_context_with_agent, hr, ha, hm,
                  hv, hb, jContainsE] at hshare
          | obj kvs2 =>
              cases hb : kvs2.any (fun kv => kv.1 == aid) <;>
                simp [ContextManager.share_context_with_agent, hr, ha, hm,
                  hv, hb, jContainsE] at hshare
          | arr xs =>
              by_cases hmem : (JVal.str aid) ∈ xs
              · simp [ContextManager.share_context_with_agent, hr, ha, hm,
                  hv, hmem, jContainsE] at hshare
              · simp [ContextManager.share_context_with_agent, hr, ha, hm,
                  hv, hmem, jContainsE] at hshare
                subst hshare
                refine ⟨.obj (dset (dset (ContextManager.sharedWithInit kvs)
                  "shared_with" (.arr (xs ++ [.str aid]))) "last_shared"
                  (.time now)), ?_, ?_⟩
                · exact alGet_alInsert_self _ _ _
                · simp only [Store.store_context]
                  rw [find?_append_left_none _ _ _ (find?_filter_id_ne _ _)]
                  simp [List.find?]

theorem c9_witness :
    ∃ meta', alGet (sharedState c4s0 "c"
        (sharedCtx c4ctx0 [] [] "a" 1)).active_contexts "c" =
      some ⟨c4ctx0.context_id, c4ctx0.context_type, c4ctx0.data, meta',
        c4ctx0.expires_at, c4ctx0.created_at⟩
    ∧ (sharedState c4s0 "c" (sharedCtx c4ctx0 [] [] "a" 1)).store.contexts.find?
        (fun c => c.context_id == c4ctx0.context_id) =
      some ⟨c4ctx0.context_id, c4ctx0.context_type, c4ctx0.data, meta',
        c4ctx0.expires_at, c4ctx0.created_at⟩ :=
  c9_share_frame c4s0 c4s0 1 "c" "a" c4ctx0
    (sharedState c4s0 "c" (sharedCtx c4ctx0 [] [] "a" 1))
    (by decide) (by decide)
